import Mathlib

/-! devstation-cli: installation orchestration

A shallow embedding of the installation layer of `devstation-cli`
(`pkg/installer/installer.go`, `pkg/cdev/cdev.go`, `pkg/python/python.go`,
`cmd/commands.go`) and theorems about it.

External effects are made explicit.  A Go function that talks to the outside
world becomes a function on a `Traced σ`: the state `σ` of whatever the code
calls into, together with the chronological list of observable events the
function itself produced (text written to standard output, calls of
`PackageManager.Install`, external processes started).
-/

namespace DevStation

/-! ## Data model -/

/-- A Go `error` value: `none` is `nil`, `some msg` is an error whose
`Error()` text is `msg`. -/
abbrev GoError := Option String

/-- Observable events produced by the embedded functions. -/
inductive Event where
  /-- Text written by `fmt.Print*`. -/
  | stdout (text : String)
  /-- One call of `PackageManager.Install(pkg)`. -/
  | install (pkg : String)
  /-- One external process started through `exec.Command(argv...)`. -/
  | exec (argv : List String)
  /-- One `Run()` or `Output()` of a command whose executable does not resolve:
  the call returns the lookup error and no process is started. -/
  | notStarted (argv : List String)
  deriving DecidableEq

/-- The state a function runs on: the state of the layer below it and the
events produced so far, oldest first. -/
structure Traced (σ : Type) where
  world : σ
  trace : List Event

/-- The `PackageManager` interface of `installer.go`.  An implementation may
depend on and change the state `σ` of the machine it runs on. -/
structure PackageManager (σ : Type) where
  Install : String → σ → GoError × σ
  IsInstalled : String → σ → Bool × σ
  Update : String → σ → GoError × σ

/-- The package names passed to `PackageManager.Install`, in call order. -/
def installCalls : List Event → List String
  | [] => []
  | Event.install pkg :: es => pkg :: installCalls es
  | _ :: es => installCalls es

/-- The argument vectors of the external processes started, in order. -/
def execCalls : List Event → List (List String)
  | [] => []
  | Event.exec argv :: es => argv :: execCalls es
  | _ :: es => execCalls es

/-- The argument vectors of every `Run()` or `Output()` call made, whether or
not a process could be started for it, in order. -/
def runAttempts : List Event → List (List String)
  | [] => []
  | Event.exec argv :: es => argv :: runAttempts es
  | Event.notStarted argv :: es => argv :: runAttempts es
  | _ :: es => runAttempts es

/-- Writing `text` to standard output (`fmt.Printf` after formatting). -/
def printf {σ : Type} (text : String) (r : Traced σ) : Traced σ :=
  { world := r.world, trace := r.trace ++ [Event.stdout text] }

/-- Go `fmt.Println` of one string. -/
def println {σ : Type} (text : String) (r : Traced σ) : Traced σ :=
  printf (text ++ "\n") r

/-- A call `c.PackageManager.Install(pkg)` made through the interface. -/
def callInstall {σ : Type} (pm : PackageManager σ) (pkg : String) (r : Traced σ) :
    GoError × Traced σ :=
  ((pm.Install pkg r.world).1,
    { world := (pm.Install pkg r.world).2, trace := r.trace ++ [Event.install pkg] })

/-! ## `pkg/installer/installer.go` -/

/-- The operating system as `os/exec` sees it, over a host state `ω`. -/
structure Host (ω : Type) where
  /-- Whether `exec.LookPath(command)` returns no error. -/
  lookPath : String → ω → Bool
  /-- The effect of `Run()` on a command whose executable resolved: the process
  is started and waited for; the error returned (nonzero exit) and the host
  state afterwards. -/
  run : List String → ω → GoError × ω
  /-- The effect of `Output()` on a command whose executable resolved: captured
  standard output, error, and the host state afterwards. -/
  output : List String → ω → (String × GoError) × ω

/-- Whether `exec.Command(argv...)` finds its executable.  It looks the command
name up with `exec.LookPath`, the very check `isCommandAvailable` makes. -/
def commandResolves {ω : Type} (host : Host ω) (argv : List String) (w : ω) : Bool :=
  match argv with
  | [] => false
  | name :: _ => host.lookPath name w

/-- The text of the error a command returns when its executable was not found
(`exec.Error` around `exec.ErrNotFound`, in its Windows wording). -/
def notFoundError (argv : List String) : String :=
  "exec: \"" ++ argv.headD "" ++ "\": executable file not found in %PATH%"

/-- The outcome of `exec.Command(argv...).Run()`.  When the executable does not
resolve, `Run` returns the lookup error, starts no process and leaves the host
as it was. -/
def commandRun {ω : Type} (host : Host ω) (argv : List String) (w : ω) : GoError × ω :=
  if commandResolves host argv w then host.run argv w
  else (some (notFoundError argv), w)

/-- The outcome of `exec.Command(argv...).Output()`, with the same lookup. -/
def commandOutput {ω : Type} (host : Host ω) (argv : List String) (w : ω) :
    (String × GoError) × ω :=
  if commandResolves host argv w then host.output argv w
  else (("", some (notFoundError argv)), w)

/-- The event one `Run()` or `Output()` call leaves in the trace. -/
def commandEvent {ω : Type} (host : Host ω) (argv : List String) (w : ω) : Event :=
  if commandResolves host argv w then Event.exec argv else Event.notStarted argv

/-- Building a command and calling `cmd.Run()` on it. -/
def runCommand {ω : Type} (host : Host ω) (argv : List String) (r : Traced ω) :
    GoError × Traced ω :=
  ((commandRun host argv r.world).1,
    { world := (commandRun host argv r.world).2,
      trace := r.trace ++ [commandEvent host argv r.world] })

/-- Building a command and calling `cmd.Output()` on it. -/
def outputCommand {ω : Type} (host : Host ω) (argv : List String) (r : Traced ω) :
    (String × GoError) × Traced ω :=
  ((commandOutput host argv r.world).1,
    { world := (commandOutput host argv r.world).2,
      trace := r.trace ++ [commandEvent host argv r.world] })

/-- Go `strings.Contains(s, substr)`. -/
def stringsContains (s substr : String) : Bool :=
  decide (List.IsInfix substr.data s.data)

/-- The two implementations of the `PackageManager` interface; a value of this
type is the dynamic type of the interface value the selector returns. -/
inductive Manager where
  | ChocoManager
  | WingetManager
  deriving DecidableEq

/-- `ChocoManager.Install`. -/
def ChocoManager.Install {ω : Type} (host : Host ω) (packageName : String) (r : Traced ω) :
    GoError × Traced ω :=
  let r1 := printf ("Installing " ++ packageName ++ " via Chocolatey...\n") r
  runCommand host ["choco", "install", packageName, "-y"] r1

/-- `ChocoManager.IsInstalled`. -/
def ChocoManager.IsInstalled {ω : Type} (host : Host ω) (packageName : String)
    (r : Traced ω) : Bool × Traced ω :=
  match outputCommand host ["choco", "list", "--local-only", packageName] r with
  | ((_, some _), r1) => (false, r1)
  | ((out, none), r1) => (stringsContains out packageName, r1)

/-- `ChocoManager.Update`. -/
def ChocoManager.Update {ω : Type} (host : Host ω) (packageName : String) (r : Traced ω) :
    GoError × Traced ω :=
  let r1 := printf ("Updating " ++ packageName ++ " via Chocolatey...\n") r
  runCommand host ["choco", "upgrade", packageName, "-y"] r1

/-- `WingetManager.Install`. -/
def WingetManager.Install {ω : Type} (host : Host ω) (packageName : String) (r : Traced ω) :
    GoError × Traced ω :=
  let r1 := printf ("Installing " ++ packageName ++ " via winget...\n") r
  runCommand host
    ["winget", "install", packageName, "--accept-package-agreements",
      "--accept-source-agreements"] r1

/-- `WingetManager.IsInstalled`. -/
def WingetManager.IsInstalled {ω : Type} (host : Host ω) (packageName : String)
    (r : Traced ω) : Bool × Traced ω :=
  match outputCommand host ["winget", "list", packageName] r with
  | ((_, some _), r1) => (false, r1)
  | ((out, none), r1) => (stringsContains out packageName, r1)

/-- `WingetManager.Update`. -/
def WingetManager.Update {ω : Type} (host : Host ω) (packageName : String) (r : Traced ω) :
    GoError × Traced ω :=
  let r1 := printf ("Updating " ++ packageName ++ " via winget...\n") r
  runCommand host ["winget", "upgrade", packageName] r1

/-- Method dispatch: the `PackageManager` a `Manager` implements on a host. -/
def Manager.toPackageManager {ω : Type} (host : Host ω) : Manager → PackageManager (Traced ω)
  | Manager.ChocoManager =>
    { Install := ChocoManager.Install host
      IsInstalled := ChocoManager.IsInstalled host
      Update := ChocoManager.Update host }
  | Manager.WingetManager =>
    { Install := WingetManager.Install host
      IsInstalled := WingetManager.IsInstalled host
      Update := WingetManager.Update host }

/-- `isCommandAvailable`. -/
def isCommandAvailable {ω : Type} (host : Host ω) (command : String) (w : ω) : Bool :=
  host.lookPath command w

/-- `GetAvailablePackageManager`; `none` is the `nil` interface value. -/
def GetAvailablePackageManager {ω : Type} (host : Host ω) (w : ω) : Option Manager :=
  if isCommandAvailable host "winget" w then some Manager.WingetManager
  else if isCommandAvailable host "choco" w then some Manager.ChocoManager
  else none

/-- The argument vector of the PowerShell process that installs Chocolatey. -/
def bootstrapArgv : List String :=
  ["powershell", "-Command",
    "Set-ExecutionPolicy Bypass -Scope Process -Force; " ++
    "[System.Net.ServicePointManager]::SecurityProtocol = [System.Net.ServicePointManager]::SecurityProtocol -bor 3072; " ++
    "iex ((New-Object System.Net.WebClient).DownloadString('https://community.chocolatey.org/install.ps1'))"]

/-- `InstallPackageManager`. -/
def InstallPackageManager {ω : Type} (host : Host ω) (r : Traced ω) : GoError × Traced ω :=
  if GetAvailablePackageManager host r.world ≠ none then (none, r)
  else
    let r1 := println "No package manager found. Installing Chocolatey..." r
    runCommand host bootstrapArgv r1

/-- How many times the Chocolatey bootstrap process was started. -/
def bootstrapRuns (trace : List Event) : Nat :=
  (execCalls trace).count bootstrapArgv

/-! ## `pkg/cdev/cdev.go` -/

/-- `CDevSetup.installCompiler`: MinGW first, Visual Studio Build Tools as the
fallback. -/
def installCompiler {σ : Type} (pm : PackageManager σ) (r : Traced σ) : GoError × Traced σ :=
  let r1 := println "Installing C compiler..." r
  match callInstall pm "mingw" r1 with
  | (some err, r2) =>
    let r3 := printf ("MinGW installation failed: " ++ err ++ "\n") r2
    let r4 := println "Trying Visual Studio Build Tools..." r3
    match callInstall pm "visualstudio2022buildtools" r4 with
    | (some err2, r5) =>
      (some ("failed to install both MinGW and VS Build Tools: " ++ err2), r5)
    | (none, r5) => (none, r5)
  | (none, r2) => (none, r2)

/-- The `tools` slice of `installDevelopmentTools`. -/
def tools : List String :=
  ["cmake", "make", "git", "vscode", "clang-format", "gdb"]

/-- The `for _, tool := range tools` loop of `installDevelopmentTools`. -/
def installToolsLoop {σ : Type} (pm : PackageManager σ) : List String → Traced σ → Traced σ
  | [], r => r
  | tool :: rest, r =>
    match callInstall pm tool r with
    | (some err, r1) =>
      installToolsLoop pm rest
        (printf ("Warning: Failed to install " ++ tool ++ ": " ++ err ++ "\n") r1)
    | (none, r1) => installToolsLoop pm rest r1

/-- `CDevSetup.installDevelopmentTools`. -/
def installDevelopmentTools {σ : Type} (pm : PackageManager σ) (r : Traced σ) :
    GoError × Traced σ :=
  let r1 := println "Installing C development tools..." r
  (none, installToolsLoop pm tools r1)

/-- `CDevSetup.InstallCDevelopmentTools`. -/
def InstallCDevelopmentTools {σ : Type} (pm : PackageManager σ) (r : Traced σ) :
    GoError × Traced σ :=
  let r1 := println "=== Setting up C Development Environment ===" r
  match installCompiler pm r1 with
  | (some err, r2) => (some ("failed to install C compiler: " ++ err), r2)
  | (none, r2) =>
    match installDevelopmentTools pm r2 with
    | (some err, r3) => (some ("failed to install development tools: " ++ err), r3)
    | (none, r3) =>
      (none, println "✓ C development environment setup complete!" r3)

/-! ## `pkg/cdev/cdev.go`: project scaffolding -/

/-- The file layer of the operating system as packages `os` and
`path/filepath` expose it, over a disk state `φ`. -/
structure FileSys (φ : Type) where
  /-- The result of `filepath.Join(elem...)`. -/
  join : List String → String
  /-- The effect of `os.MkdirAll(path, 0755)`. -/
  mkdirAll : String → φ → GoError × φ
  /-- The effect of `os.WriteFile(name, []byte(content), 0644)`. -/
  writeFile : String → String → φ → GoError × φ

/-- A Go `map[string]string`: keys are pairwise distinct. -/
abbrev GoMap := List (String × String)

/-- The assignment `m[k] = v`: an existing entry for `k` is replaced. -/
def GoMap.set : GoMap → String → String → GoMap
  | [], k, v => [(k, v)]
  | (k', v') :: rest, k, v =>
    if k' = k then (k, v) :: rest else (k', v') :: GoMap.set rest k v

/-- The lookup `m[k]`. -/
def GoMap.get : GoMap → String → Option String
  | [], _ => none
  | (k', v') :: rest, k => if k' = k then some v' else GoMap.get rest k

/-- A map composite literal whose keys are computed at run time: the entries
are assigned one after the other, in source order. -/
def GoMap.literal (entries : List (String × String)) : GoMap :=
  entries.foldl (fun m kv => GoMap.set m kv.1 kv.2) []

/-- Go `generateReadme`: the text of `README.md`. -/
def generateReadme (projectName : String) : String :=
    "# " ++
    projectName ++
    "\n\nA C project created with DevStation CLI.\n\n## Building\n\n" ++
    "### Using CMake\n```bash\nmkdir build\ncd build\ncmake ..\nmake\n```\n\n" ++
    "### Using Make directly\n```bash\nmake\n```\n\n## Running\n```bash\n./build/" ++
    projectName ++
    "\n```\n\n## Testing\n```bash\nmake test\n```\n\n## Project Structure\n" ++
    "- `src/` - Source files\n- `include/` - Header files\n" ++
    "- `tests/` - Test files\n- `build/` - Build artifacts\n" ++
    "- `docs/` - Documentation\n"

/-- Go `generateCMakeLists`: the text of `CMakeLists.txt`. -/
def generateCMakeLists (projectName : String) : String :=
    "cmake_minimum_required(VERSION 3.10)\nproject(" ++
    projectName ++
    ")\n\n# Set C standard\nset(CMAKE_C_STANDARD 11)\n" ++
    "set(CMAKE_C_STANDARD_REQUIRED ON)\n\n# Add include directory\n" ++
    "include_directories(include)\n\n# Add executable\nadd_executable(" ++
    projectName ++
    " src/main.c src/" ++
    projectName ++
    ".c)\n\n# Add test executable\nadd_executable(test_main tests/test_main.c src/" ++
    projectName ++
    ".c)\n\n# Enable testing\nenable_testing()\n" ++
    "add_test(NAME test_main COMMAND test_main)\n"

/-- Go `generateMakefile`: the text of `Makefile`. -/
def generateMakefile (projectName : String) : String :=
    "CC=gcc\nCFLAGS=-Wall -Wextra -std=c11 -Iinclude\nSRCDIR=src\nBUILDDIR=build\n" ++
    "TESTDIR=tests\nSOURCES=$(SRCDIR)/main.c $(SRCDIR)/" ++
    projectName ++
    ".c\n\n# Default target\nall: $(BUILDDIR)/" ++
    projectName ++
    "\n\n# Create build directory\n$(BUILDDIR):\n\tmkdir -p $(BUILDDIR)\n\n" ++
    "# Build main executable\n$(BUILDDIR)/" ++
    projectName ++
    ": $(SOURCES) | $(BUILDDIR)\n\t$(CC) $(CFLAGS) -o $@ $(SOURCES)\n\n" ++
    "# Build and run tests\ntest: $(BUILDDIR)/test_main\n\t$(BUILDDIR)/test_main\n" ++
    "\n$(BUILDDIR)/test_main: $(TESTDIR)/test_main.c $(SRCDIR)/" ++
    projectName ++
    ".c | $(BUILDDIR)\n\t$(CC) $(CFLAGS) -o $@ $^\n\n# Clean build artifacts\n" ++
    "clean:\n\trm -rf $(BUILDDIR)\n\n# Run the program\nrun: $(BUILDDIR)/" ++
    projectName ++
    "\n\t$(BUILDDIR)/" ++
    projectName ++
    "\n\n.PHONY: all test clean run\n"

/-- Go `generateMainC`: the text of `src/main.c`, which defines `main`. -/
def generateMainC (projectName : String) : String :=
    "#include <stdio.h>\n#include \"" ++
    projectName ++
    ".h\"\n\nint main(void) \x7b\n    printf(\"Hello from " ++
    projectName ++
    "!\\\\n\");\n    \n    // Call a function from your header\n    greet();\n" ++
    "    \n    return 0;\n\x7d\n"

/-- Go `generateSourceC`: the text of `src/<projectName>.c`, which defines `greet`. -/
def generateSourceC (projectName : String) : String :=
    "#include <stdio.h>\n#include \"" ++
    projectName ++
    ".h\"\n\nvoid greet(void) \x7b\n    printf(\"Hello from " ++
    projectName ++
    " library!\\\\n\");\n\x7d\n"

/-- Go `generateHeader`: the text of `include/<projectName>.h`. -/
def generateHeader (projectName : String) : String :=
    "#ifndef " ++
    projectName ++
    "_H\n#define " ++
    projectName ++
    "_H\n\n// Function prototypes\nvoid greet(void);\n\n#endif // " ++
    projectName ++
    "_H\n"

/-- Go `generateTestC`: the text of `tests/test_main.c`. -/
def generateTestC (projectName : String) : String :=
    "#include <stdio.h>\n#include <assert.h>\n#include \"" ++
    projectName ++
    ".h\"\n\nvoid test_basic_functionality(void) \x7b\n    // Add your tests here\n" ++
    "    printf(\"Running basic functionality test...\\\\n\");\n" ++
    "    // Example: assert(some_function() == expected_value);\n" ++
    "    printf(\"✓ Basic functionality test passed\\\\n\");\n\x7d\n\n" ++
    "int main(void) \x7b\n    printf(\"Running tests for " ++
    projectName ++
    "...\\\\n\");\n    \n    test_basic_functionality();\n    \n" ++
    "    printf(\"All tests passed!\\\\n\");\n    return 0;\n\x7d\n"

/-- The constant `cGitignore`: the text of `.gitignore`. -/
def cGitignore : String :=
    "# Object files\n*.o\n*.ko\n*.obj\n*.elf\n\n# Linker output\n*.ilk\n*.map\n" ++
    "*.exp\n\n# Precompiled Headers\n*.gch\n*.pch\n\n# Libraries\n*.lib\n*.a\n" ++
    "*.la\n*.lo\n\n# Shared objects (inc. Windows DLLs)\n*.dll\n*.so\n*.so.*\n" ++
    "*.dylib\n\n# Executables\n*.exe\n*.out\n*.app\n*.i*86\n*.x86_64\n*.hex\n\n" ++
    "# Debug files\n*.dSYM/\n*.su\n*.idb\n*.pdb\n\n# Build directories\nbuild/\n" ++
    "Build/\nBUILD/\nout/\nbin/\nobj/\n\n# CMake\nCMakeCache.txt\nCMakeFiles/\n" ++
    "cmake_install.cmake\nMakefile\n*.cmake\n!CMakeLists.txt\n\n# IDE files\n" ++
    ".vscode/\n.idea/\n*.swp\n*.swo\n*~\n\n# OS files\n.DS_Store\nThumbs.db\n\n" ++
    "# Core dumps\ncore\n*.core\n\n# Temporary files\n*.tmp\n*.temp\n*.bak\n" ++
    "*.backup\n"

/-- The `dirs` slice of `CreateCProject`. -/
def dirs {φ : Type} (fs : FileSys φ) (projectName : String) : List String :=
  [fs.join [projectName, "src"], fs.join [projectName, "include"],
    fs.join [projectName, "tests"], fs.join [projectName, "build"],
    fs.join [projectName, "docs"]]

/-- The eight key-value pairs written in the `files` map literal of
`CreateCProject`, in source order. -/
def fileEntries {φ : Type} (fs : FileSys φ) (projectName : String) :
    List (String × String) :=
  [(fs.join [projectName, "README.md"], generateReadme projectName),
    (fs.join [projectName, ".gitignore"], cGitignore),
    (fs.join [projectName, "CMakeLists.txt"], generateCMakeLists projectName),
    (fs.join [projectName, "Makefile"], generateMakefile projectName),
    (fs.join [projectName, "src", "main.c"], generateMainC projectName),
    (fs.join [projectName, "src", projectName ++ ".c"], generateSourceC projectName),
    (fs.join [projectName, "include", projectName ++ ".h"], generateHeader projectName),
    (fs.join [projectName, "tests", "test_main.c"], generateTestC projectName)]

/-- The `files` map of `CreateCProject`. -/
def files {φ : Type} (fs : FileSys φ) (projectName : String) : GoMap :=
  GoMap.literal (fileEntries fs projectName)

/-- The `for _, dir := range dirs` loop of `CreateCProject`. -/
def mkdirLoop {φ : Type} (fs : FileSys φ) : List String → Traced φ → GoError × Traced φ
  | [], r => (none, r)
  | dir :: rest, r =>
    match fs.mkdirAll dir r.world with
    | (some err, w) =>
      (some ("failed to create directory " ++ dir ++ ": " ++ err),
        { world := w, trace := r.trace })
    | (none, w) => mkdirLoop fs rest { world := w, trace := r.trace }

/-- The `for filename, content := range files` loop of `CreateCProject`.  Go
leaves the iteration order of a map unspecified; the entries are visited here
in the order of the list that represents the map. -/
def writeLoop {φ : Type} (fs : FileSys φ) : GoMap → Traced φ → GoError × Traced φ
  | [], r => (none, r)
  | (filename, content) :: rest, r =>
    match fs.writeFile filename content r.world with
    | (some err, w) =>
      (some ("failed to create file " ++ filename ++ ": " ++ err),
        { world := w, trace := r.trace })
    | (none, w) => writeLoop fs rest { world := w, trace := r.trace }

/-- `CDevSetup.CreateCProject`. -/
def CreateCProject {φ : Type} (fs : FileSys φ) (projectName : String) (r : Traced φ) :
    GoError × Traced φ :=
  let r1 := printf ("Creating C project structure for '" ++ projectName ++ "'...\n") r
  match fs.mkdirAll projectName r1.world with
  | (some err, w) =>
    (some ("failed to create project directory: " ++ err), { world := w, trace := r1.trace })
  | (none, w) =>
    match mkdirLoop fs (dirs fs projectName) { world := w, trace := r1.trace } with
    | (some err, r2) => (some err, r2)
    | (none, r2) =>
      match writeLoop fs (files fs projectName) r2 with
      | (some err, r3) => (some err, r3)
      | (none, r3) =>
        let r4 := printf ("✓ C project '" ++ projectName ++ "' created successfully!\n") r3
        let r5 := printf "To build the project, run:\n" r4
        let r6 := printf ("  cd " ++ projectName ++ "\n") r5
        let r7 := printf "  mkdir build && cd build\n" r6
        let r8 := printf "  cmake ..\n" r7
        (none, printf "  make\n" r8)

/-! ## A file layer to run `CreateCProject` on -/

/-- The pieces of a path between its `/` separators. -/
def splitOnSlash : List Char → List (List Char)
  | [] => [[]]
  | c :: cs =>
    if c = '/' then [] :: splitOnSlash cs
    else
      match splitOnSlash cs with
      | [] => [[c]]
      | seg :: segs => (c :: seg) :: segs

/-- One step of `filepath.Clean`: `out` holds the elements kept so far, last
one first.  Empty and `.` elements are dropped, a `..` removes the element
before it, is dropped at the root, and is kept at the start of a relative
path. -/
def cleanStep (rooted : Bool) (out : List (List Char)) (seg : List Char) :
    List (List Char) :=
  if seg = [] then out
  else if seg = ['.'] then out
  else if seg = ['.', '.'] then
    match out with
    | [] => if rooted then [] else [seg]
    | top :: below => if top = ['.', '.'] then seg :: out else below
  else seg :: out

/-- Go `filepath.Clean` on a system whose separator is `/`. -/
def filepathClean (path : List Char) : List Char :=
  if path = [] then ['.']
  else
    let rooted := decide (path.head? = some '/')
    let body :=
      List.intercalate ['/'] ((splitOnSlash path).foldl (cleanStep rooted) []).reverse
    if rooted then '/' :: body
    else if body = [] then ['.']
    else body

/-- Go `filepath.Join` on a system whose separator is `/`: leading empty
elements are skipped, the rest is joined with `/` and cleaned; the result is
empty when every element is. -/
def filepathJoin (elem : List String) : String :=
  match elem.dropWhile (fun e => decide (e = "")) with
  | [] => ""
  | rest => String.mk (filepathClean (List.intercalate ['/'] (rest.map String.data)))

/-- A disk that records what is done to it. -/
structure Disk where
  /-- The paths passed to `os.MkdirAll`, in call order. -/
  made : List String
  /-- The name and content of every `os.WriteFile` call, in call order. -/
  written : List (String × String)

/-- A file layer on which every operation succeeds and is recorded. -/
def recordingFS : FileSys Disk where
  join := filepathJoin
  mkdirAll := fun path d => (none, { made := d.made ++ [path], written := d.written })
  writeFile := fun name content d =>
    (none, { made := d.made, written := d.written ++ [(name, content)] })

/-! ## `pkg/python/python.go` -/

/-- `PythonSetup.ensurePipInstalled`: the processes are started directly through
`os/exec`, here the host `sh` acting on the same state as the package manager. -/
def ensurePipInstalled {σ : Type} (sh : Host σ) (r : Traced σ) : GoError × Traced σ :=
  match runCommand sh ["python", "-m", "pip", "--version"] r with
  | (some _, r1) =>
    let r2 := println "Installing pip..." r1
    runCommand sh ["python", "-m", "ensurepip", "--upgrade"] r2
  | (none, r1) => (none, println "✓ pip is available" r1)

/-- The `packages` slice of `installEssentialPackages`. -/
def packages : List String :=
  ["virtualenv", "pip-tools", "black", "flake8", "pytest", "requests", "numpy", "pandas",
    "jupyter"]

/-- The `for _, pkg := range packages` loop of `installEssentialPackages`. -/
def installPackagesLoop {σ : Type} (sh : Host σ) : List String → Traced σ → Traced σ
  | [], r => r
  | pkg :: rest, r =>
    let r1 := printf ("Installing " ++ pkg ++ "...\n") r
    match runCommand sh ["python", "-m", "pip", "install", pkg] r1 with
    | (some err, r2) =>
      installPackagesLoop sh rest
        (printf ("Warning: Failed to install " ++ pkg ++ ": " ++ err ++ "\n") r2)
    | (none, r2) => installPackagesLoop sh rest r2

/-- `PythonSetup.installEssentialPackages`. -/
def installEssentialPackages {σ : Type} (sh : Host σ) (r : Traced σ) : GoError × Traced σ :=
  let r1 := println "Installing essential Python packages..." r
  (none, installPackagesLoop sh packages r1)

/-- `PythonSetup.InstallPython`. -/
def InstallPython {σ : Type} (pm : PackageManager σ) (sh : Host σ) (r : Traced σ) :
    GoError × Traced σ :=
  let r1 := println "=== Setting up Python Development Environment ===" r
  match callInstall pm "python" r1 with
  | (some err, r2) => (some ("failed to install Python: " ++ err), r2)
  | (none, r2) =>
    match ensurePipInstalled sh r2 with
    | (some err, r3) => (some ("failed to ensure pip is installed: " ++ err), r3)
    | (none, r3) =>
      match installEssentialPackages sh r3 with
      | (some err, r4) => (some ("failed to install essential packages: " ++ err), r4)
      | (none, r4) =>
        (none, println "✓ Python development environment setup complete!" r4)

/-- The package a process installs through pip, when its argument vector is
`python -m pip install <package>`. -/
def pipInstallTarget : List String → Option String
  | [a, b, c, d, pkg] =>
    if a = "python" ∧ b = "-m" ∧ c = "pip" ∧ d = "install" then some pkg else none
  | _ => none

/-- The packages for which `python -m pip install` was run, in order: every
such `Run()` call counts, whether or not a process could be started for it. -/
def pipInstallCalls (trace : List Event) : List String :=
  (runAttempts trace).filterMap pipInstallTarget

/-- The `tools` slice of `InstallPythonTools`. -/
def pythonTools : List String :=
  ["git", "vscode"]

/-- `PythonSetup.InstallPythonTools`; its loop body is the one of
`installDevelopmentTools`. -/
def InstallPythonTools {σ : Type} (pm : PackageManager σ) (r : Traced σ) :
    GoError × Traced σ :=
  let r1 := println "=== Installing Python Development Tools ===" r
  (none, installToolsLoop pm pythonTools r1)

/-! ## `cmd/commands.go`

The command layer runs on `Traced (Traced ω)`.  The inner trace is what package
`installer` does on the host (its output and the processes it starts); the
outer trace is what packages `cmd`, `cdev` and `python` do themselves (their
output, their calls of `PackageManager.Install`, and the processes package
`python` starts directly). -/

/-- The host as seen by code that runs one layer above package `installer`:
the same processes, acting on the host state inside a `Traced ω`. -/
def liftHost {ω : Type} (host : Host ω) : Host (Traced ω) where
  lookPath := fun command t => host.lookPath command t.world
  run := fun argv t =>
    ((host.run argv t.world).1, { world := (host.run argv t.world).2, trace := t.trace })
  output := fun argv t =>
    ((host.output argv t.world).1,
      { world := (host.output argv t.world).2, trace := t.trace })

/-- `setupPythonEnvironment`. -/
def setupPythonEnvironment {ω : Type} (host : Host ω) (r : Traced (Traced ω)) :
    GoError × Traced (Traced ω) :=
  let r1 := println "🐍 Setting up Python development environment..." r
  match InstallPackageManager host r1.world with
  | (some err, t) =>
    (some ("failed to install package manager: " ++ err), { world := t, trace := r1.trace })
  | (none, t) =>
    match GetAvailablePackageManager host t.world with
    | none => (some "no package manager available", { world := t, trace := r1.trace })
    | some pm =>
      match InstallPython (Manager.toPackageManager host pm) (liftHost host)
          { world := t, trace := r1.trace } with
      | (some err, r2) => (some err, r2)
      | (none, r2) =>
        match InstallPythonTools (Manager.toPackageManager host pm) r2 with
        | (some err, r3) => (some err, r3)
        | (none, r3) => (none, r3)

/-- `setupCEnvironment`. -/
def setupCEnvironment {ω : Type} (host : Host ω) (r : Traced (Traced ω)) :
    GoError × Traced (Traced ω) :=
  let r1 := println "⚙️  Setting up C development environment..." r
  match InstallPackageManager host r1.world with
  | (some err, t) =>
    (some ("failed to install package manager: " ++ err), { world := t, trace := r1.trace })
  | (none, t) =>
    match GetAvailablePackageManager host t.world with
    | none => (some "no package manager available", { world := t, trace := r1.trace })
    | some pm =>
      match InstallCDevelopmentTools (Manager.toPackageManager host pm)
          { world := t, trace := r1.trace } with
      | (some err, r2) => (some err, r2)
      | (none, r2) => (none, r2)

/-! ## Example backends -/

/-- A backend on which every operation fails. -/
def alwaysFails : PackageManager Unit where
  Install := fun _ w => (some "exit status 1", w)
  IsInstalled := fun _ w => (false, w)
  Update := fun _ w => (some "exit status 1", w)

/-- A backend on which every operation succeeds. -/
def alwaysSucceeds : PackageManager Unit where
  Install := fun _ w => (none, w)
  IsInstalled := fun _ w => (true, w)
  Update := fun _ w => (none, w)

/-- A backend that installs exactly the packages listed in `ok`. -/
def onlyInstalls (ok : List String) : PackageManager Unit where
  Install := fun pkg w => (if pkg ∈ ok then none else some "exit status 1", w)
  IsInstalled := fun pkg w => (decide (pkg ∈ ok), w)
  Update := fun pkg w => (if pkg ∈ ok then none else some "exit status 1", w)

/-- A backend whose state is the list of packages `Install` was applied to,
oldest first; it installs every package except those listed in `broken`. -/
def recordingBackend (broken : List String) : PackageManager (List String) where
  Install := fun pkg w =>
    (if pkg ∈ broken then some "exit status 1" else none, w ++ [pkg])
  IsInstalled := fun pkg w => (decide (pkg ∉ broken), w)
  Update := fun pkg w => (if pkg ∈ broken then some "exit status 1" else none, w)

/-- A small host whose state is the list of commands resolvable on the search
path.  Running PowerShell returns `bootstrap` and makes the commands in `adds`
resolvable; any other command succeeds exactly when it is resolvable. -/
def pathHost (bootstrap : GoError) (adds : List String) : Host (List String) where
  lookPath := fun command w => decide (command ∈ w)
  run := fun argv w =>
    if argv.head? = some "powershell" then (bootstrap, adds ++ w)
    else if argv.head?.any (fun command => decide (command ∈ w)) then (none, w)
    else (some "exit status 1", w)
  output := fun argv w =>
    if argv.head?.any (fun command => decide (command ∈ w)) then (("", none), w)
    else (("", some "exit status 1"), w)

/-- A host whose state is the list of resolvable commands and on which every
process run fails and changes nothing. -/
def failingHost : Host (List String) where
  lookPath := fun command w => decide (command ∈ w)
  run := fun _ w => (some "exit status 1", w)
  output := fun _ w => (("", some "exit status 1"), w)

/-- A host on which every command resolves and every process exits with
status 0. -/
def obligingHost : Host Unit where
  lookPath := fun _ _ => true
  run := fun _ w => (none, w)
  output := fun _ w => (("", none), w)

/-- The empty starting state over a given world. -/
def start {σ : Type} (w : σ) : Traced σ :=
  { world := w, trace := [] }

/-! ## Trace lemmas -/

@[simp] theorem installCalls_append (xs ys : List Event) :
    installCalls (xs ++ ys) = installCalls xs ++ installCalls ys := by
  induction xs with
  | nil => rfl
  | cons e es ih => cases e <;> simp [installCalls, ih]

@[simp] theorem execCalls_append (xs ys : List Event) :
    execCalls (xs ++ ys) = execCalls xs ++ execCalls ys := by
  induction xs with
  | nil => rfl
  | cons e es ih => cases e <;> simp [execCalls, ih]

@[simp] theorem printf_world {σ : Type} (t : String) (r : Traced σ) :
    (printf t r).world = r.world := rfl

@[simp] theorem println_world {σ : Type} (t : String) (r : Traced σ) :
    (println t r).world = r.world := rfl

@[simp] theorem installCalls_printf {σ : Type} (t : String) (r : Traced σ) :
    installCalls (printf t r).trace = installCalls r.trace := by
  simp [printf, installCalls]

@[simp] theorem installCalls_println {σ : Type} (t : String) (r : Traced σ) :
    installCalls (println t r).trace = installCalls r.trace := by
  simp [println]

@[simp] theorem runAttempts_append (xs ys : List Event) :
    runAttempts (xs ++ ys) = runAttempts xs ++ runAttempts ys := by
  induction xs with
  | nil => rfl
  | cons e es ih => cases e <;> simp [runAttempts, ih]

@[simp] theorem execCalls_printf {σ : Type} (t : String) (r : Traced σ) :
    execCalls (printf t r).trace = execCalls r.trace := by
  simp [printf, execCalls]

@[simp] theorem execCalls_println {σ : Type} (t : String) (r : Traced σ) :
    execCalls (println t r).trace = execCalls r.trace := by
  simp [println]

@[simp] theorem runAttempts_printf {σ : Type} (t : String) (r : Traced σ) :
    runAttempts (printf t r).trace = runAttempts r.trace := by
  simp [printf, runAttempts]

@[simp] theorem runAttempts_println {σ : Type} (t : String) (r : Traced σ) :
    runAttempts (println t r).trace = runAttempts r.trace := by
  simp [println]

@[simp] theorem installCalls_cons_commandEvent {ω : Type} (host : Host ω)
    (argv : List String) (w : ω) (es : List Event) :
    installCalls (commandEvent host argv w :: es) = installCalls es := by
  unfold commandEvent
  split <;> rfl

@[simp] theorem runAttempts_cons_commandEvent {ω : Type} (host : Host ω)
    (argv : List String) (w : ω) (es : List Event) :
    runAttempts (commandEvent host argv w :: es) = argv :: runAttempts es := by
  unfold commandEvent
  split <;> rfl

theorem execCalls_cons_commandEvent {ω : Type} (host : Host ω)
    (argv : List String) (w : ω) (es : List Event) :
    execCalls (commandEvent host argv w :: es) =
      (if commandResolves host argv w then [argv] else []) ++ execCalls es := by
  unfold commandEvent
  split <;> rfl

/-! ## The compiler step -/

theorem installCompiler_primary_ok {σ : Type} (pm : PackageManager σ) (r : Traced σ)
    (hPrimary : (pm.Install "mingw" r.world).1 = none) :
    (installCompiler pm r).1 = none ∧
      installCalls (installCompiler pm r).2.trace = installCalls r.trace ++ ["mingw"] := by
  rcases h1 : pm.Install "mingw" r.world with ⟨e1, w1⟩
  rw [h1] at hPrimary
  simp only at hPrimary
  subst hPrimary
  simp [installCompiler, callInstall, h1, installCalls]

theorem installCompiler_fallback_ok {σ : Type} (pm : PackageManager σ) (r : Traced σ)
    (hPrimary : (pm.Install "mingw" r.world).1 ≠ none)
    (hFallback :
      (pm.Install "visualstudio2022buildtools" (pm.Install "mingw" r.world).2).1 = none) :
    (installCompiler pm r).1 = none ∧
      installCalls (installCompiler pm r).2.trace =
        installCalls r.trace ++ ["mingw", "visualstudio2022buildtools"] := by
  rcases h1 : pm.Install "mingw" r.world with ⟨e1, w1⟩
  rw [h1] at hPrimary hFallback
  rcases h2 : pm.Install "visualstudio2022buildtools" w1 with ⟨e2, w2⟩
  rw [h2] at hFallback
  simp only at hFallback
  subst hFallback
  cases e1 with
  | none => exact absurd rfl hPrimary
  | some m1 => simp [installCompiler, callInstall, h1, h2, installCalls]

theorem installCompiler_both_fail {σ : Type} (pm : PackageManager σ) (r : Traced σ)
    (hPrimary : (pm.Install "mingw" r.world).1 ≠ none)
    (hFallback :
      (pm.Install "visualstudio2022buildtools" (pm.Install "mingw" r.world).2).1 ≠ none) :
    (installCompiler pm r).1 ≠ none ∧
      installCalls (installCompiler pm r).2.trace =
        installCalls r.trace ++ ["mingw", "visualstudio2022buildtools"] := by
  rcases h1 : pm.Install "mingw" r.world with ⟨e1, w1⟩
  rw [h1] at hPrimary hFallback
  rcases h2 : pm.Install "visualstudio2022buildtools" w1 with ⟨e2, w2⟩
  rw [h2] at hFallback
  cases e1 with
  | none => exact absurd rfl hPrimary
  | some m1 =>
    cases e2 with
    | none => exact absurd rfl hFallback
    | some m2 => simp [installCompiler, callInstall, h1, h2, installCalls]

theorem installCompiler_primary_ok_world {σ : Type} (pm : PackageManager σ) (r : Traced σ)
    (hPrimary : (pm.Install "mingw" r.world).1 = none) :
    (installCompiler pm r).2.world = (pm.Install "mingw" r.world).2 := by
  rcases h1 : pm.Install "mingw" r.world with ⟨e1, w1⟩
  rw [h1] at hPrimary
  simp only at hPrimary
  subst hPrimary
  simp [installCompiler, callInstall, h1]

theorem installCompiler_fallback_ok_world {σ : Type} (pm : PackageManager σ) (r : Traced σ)
    (hPrimary : (pm.Install "mingw" r.world).1 ≠ none) :
    (installCompiler pm r).2.world =
      (pm.Install "visualstudio2022buildtools" (pm.Install "mingw" r.world).2).2 := by
  rcases h1 : pm.Install "mingw" r.world with ⟨e1, w1⟩
  rw [h1] at hPrimary
  rcases h2 : pm.Install "visualstudio2022buildtools" w1 with ⟨e2, w2⟩
  cases e1 with
  | none => exact absurd rfl hPrimary
  | some m1 =>
    cases e2 with
    | none => simp [installCompiler, callInstall, h1, h2]
    | some m2 => simp [installCompiler, callInstall, h1, h2]

/-! ## The development-tools step -/

theorem installToolsLoop_world {σ : Type} (pm : PackageManager σ) (ts : List String) :
    ∀ r : Traced σ,
      (installToolsLoop pm ts r).world =
        ts.foldl (fun w tool => (pm.Install tool w).2) r.world := by
  induction ts with
  | nil => intro r; simp [installToolsLoop]
  | cons t rest ih =>
    intro r
    rcases h : pm.Install t r.world with ⟨e, w⟩
    cases e with
    | none => simp [installToolsLoop, callInstall, h, ih]
    | some m => simp [installToolsLoop, callInstall, h, ih]

theorem installDevelopmentTools_world {σ : Type} (pm : PackageManager σ) (r : Traced σ) :
    (installDevelopmentTools pm r).2.world =
      tools.foldl (fun w tool => (pm.Install tool w).2) r.world := by
  simp [installDevelopmentTools, installToolsLoop_world]


theorem installCalls_installToolsLoop {σ : Type} (pm : PackageManager σ) (ts : List String) :
    ∀ r : Traced σ,
      installCalls (installToolsLoop pm ts r).trace = installCalls r.trace ++ ts := by
  induction ts with
  | nil => intro r; simp [installToolsLoop]
  | cons t rest ih =>
    intro r
    rcases h : pm.Install t r.world with ⟨e, w⟩
    cases e with
    | none => simp [installToolsLoop, callInstall, h, ih, installCalls]
    | some m => simp [installToolsLoop, callInstall, h, ih, installCalls]

theorem installDevelopmentTools_calls {σ : Type} (pm : PackageManager σ) (r : Traced σ) :
    installCalls (installDevelopmentTools pm r).2.trace = installCalls r.trace ++ tools := by
  simp [installDevelopmentTools, installCalls_installToolsLoop]

/-! ## The whole run, by outcome of the compiler step -/

theorem installCDevelopmentTools_of_compiler_ok {σ : Type} (pm : PackageManager σ)
    (r : Traced σ)
    (hc : (installCompiler pm
      (println "=== Setting up C Development Environment ===" r)).1 = none) :
    (InstallCDevelopmentTools pm r).1 = none ∧
      installCalls (InstallCDevelopmentTools pm r).2.trace =
        installCalls (installCompiler pm
          (println "=== Setting up C Development Environment ===" r)).2.trace ++ tools := by
  rcases h : installCompiler pm
    (println "=== Setting up C Development Environment ===" r) with ⟨e, r2⟩
  rw [h] at hc
  simp only at hc
  subst hc
  have hd := installDevelopmentTools_calls pm r2
  have hn : (installDevelopmentTools pm r2).1 = none := rfl
  rcases h3 : installDevelopmentTools pm r2 with ⟨e3, r3⟩
  rw [h3] at hd hn
  simp only at hd hn
  subst hn
  simp [InstallCDevelopmentTools, h, h3, hd]

theorem installCDevelopmentTools_of_compiler_ok_world {σ : Type} (pm : PackageManager σ)
    (r : Traced σ)
    (hc : (installCompiler pm
      (println "=== Setting up C Development Environment ===" r)).1 = none) :
    (InstallCDevelopmentTools pm r).2.world =
      tools.foldl (fun w tool => (pm.Install tool w).2)
        (installCompiler pm
          (println "=== Setting up C Development Environment ===" r)).2.world := by
  rcases h : installCompiler pm
    (println "=== Setting up C Development Environment ===" r) with ⟨e, r2⟩
  rw [h] at hc
  simp only at hc
  subst hc
  have hd := installDevelopmentTools_world pm r2
  have hn : (installDevelopmentTools pm r2).1 = none := rfl
  rcases h3 : installDevelopmentTools pm r2 with ⟨e3, r3⟩
  rw [h3] at hd hn
  simp only at hd hn
  subst hn
  simp [InstallCDevelopmentTools, h, h3, hd]

theorem installCDevelopmentTools_of_compiler_err {σ : Type} (pm : PackageManager σ)
    (r : Traced σ)
    (hc : (installCompiler pm
      (println "=== Setting up C Development Environment ===" r)).1 ≠ none) :
    (InstallCDevelopmentTools pm r).1 ≠ none ∧
      (InstallCDevelopmentTools pm r).2.trace =
        (installCompiler pm
          (println "=== Setting up C Development Environment ===" r)).2.trace := by
  rcases h : installCompiler pm
    (println "=== Setting up C Development Environment ===" r) with ⟨e, r2⟩
  rw [h] at hc
  cases e with
  | none => exact absurd rfl hc
  | some m => simp [InstallCDevelopmentTools, h]

/-! ## Claims about `pkg/cdev/cdev.go` -/

/-- C1: when installing `mingw` fails and installing
`visualstudio2022buildtools` then fails too, `InstallCDevelopmentTools`
returns an error and the `Install` calls it made are exactly `mingw`,
`visualstudio2022buildtools`: none of the six development tools is attempted. -/
theorem installCDevelopmentTools_aborts_when_both_compilers_fail {σ : Type}
    (pm : PackageManager σ) (r : Traced σ)
    (hPrimary : (pm.Install "mingw" r.world).1 ≠ none)
    (hFallback :
      (pm.Install "visualstudio2022buildtools" (pm.Install "mingw" r.world).2).1 ≠ none) :
    (InstallCDevelopmentTools pm r).1 ≠ none ∧
      installCalls (InstallCDevelopmentTools pm r).2.trace =
        installCalls r.trace ++ ["mingw", "visualstudio2022buildtools"] := by
  have hc := installCompiler_both_fail pm
    (println "=== Setting up C Development Environment ===" r) hPrimary hFallback
  have hrun := installCDevelopmentTools_of_compiler_err pm r hc.1
  refine ⟨hrun.1, ?_⟩
  rw [hrun.2, hc.2, installCalls_println]

theorem installCDevelopmentTools_aborts_when_both_compilers_fail_witness :
    (alwaysFails.Install "mingw" (start ()).world).1 ≠ none ∧
    (alwaysFails.Install "visualstudio2022buildtools"
      (alwaysFails.Install "mingw" (start ()).world).2).1 ≠ none ∧
    ((InstallCDevelopmentTools alwaysFails (start ())).1 ≠ none ∧
      installCalls (InstallCDevelopmentTools alwaysFails (start ())).2.trace =
        installCalls (start ()).trace ++ ["mingw", "visualstudio2022buildtools"]) :=
  ⟨by simp [alwaysFails], by simp [alwaysFails],
    installCDevelopmentTools_aborts_when_both_compilers_fail alwaysFails (start ())
      (by simp [alwaysFails]) (by simp [alwaysFails])⟩

/-- C2: when installing `mingw` fails and installing
`visualstudio2022buildtools` then succeeds, `installCompiler` returns no error
after exactly those two calls, and `InstallCDevelopmentTools` goes on to call
`Install` for each of the six development tools and returns no error,
whatever those six calls return.  The calls are really made: the backend ends
in the state that applying `Install` to the eight packages in turn produces. -/
theorem installCDevelopmentTools_continues_after_fallback {σ : Type}
    (pm : PackageManager σ) (r : Traced σ)
    (hPrimary : (pm.Install "mingw" r.world).1 ≠ none)
    (hFallback :
      (pm.Install "visualstudio2022buildtools" (pm.Install "mingw" r.world).2).1 = none) :
    ((installCompiler pm r).1 = none ∧
      installCalls (installCompiler pm r).2.trace =
        installCalls r.trace ++ ["mingw", "visualstudio2022buildtools"] ∧
      (installCompiler pm r).2.world =
        ["mingw", "visualstudio2022buildtools"].foldl
          (fun w pkg => (pm.Install pkg w).2) r.world) ∧
    ((InstallCDevelopmentTools pm r).1 = none ∧
      installCalls (InstallCDevelopmentTools pm r).2.trace =
        installCalls r.trace ++
          ["mingw", "visualstudio2022buildtools",
            "cmake", "make", "git", "vscode", "clang-format", "gdb"] ∧
      (InstallCDevelopmentTools pm r).2.world =
        ["mingw", "visualstudio2022buildtools",
            "cmake", "make", "git", "vscode", "clang-format", "gdb"].foldl
          (fun w pkg => (pm.Install pkg w).2) r.world) := by
  have hstep := installCompiler_fallback_ok pm r hPrimary hFallback
  refine ⟨⟨hstep.1, hstep.2, installCompiler_fallback_ok_world pm r hPrimary⟩, ?_⟩
  have hc := installCompiler_fallback_ok pm
    (println "=== Setting up C Development Environment ===" r) hPrimary hFallback
  have hw := installCompiler_fallback_ok_world pm
    (println "=== Setting up C Development Environment ===" r) hPrimary
  have hrun := installCDevelopmentTools_of_compiler_ok pm r hc.1
  have hrunw := installCDevelopmentTools_of_compiler_ok_world pm r hc.1
  refine ⟨hrun.1, ?_, ?_⟩
  · rw [hrun.2, hc.2, installCalls_println]
    simp [tools]
  · rw [hrunw, hw]
    rfl

theorem installCDevelopmentTools_continues_after_fallback_witness :
    ((recordingBackend ["mingw", "gdb"]).Install "mingw"
      (start []).world).1 ≠ none ∧
    ((recordingBackend ["mingw", "gdb"]).Install
      "visualstudio2022buildtools"
      ((recordingBackend ["mingw", "gdb"]).Install "mingw"
        (start []).world).2).1 = none ∧
    (((installCompiler (recordingBackend ["mingw", "gdb"])
        (start [])).1 = none ∧
      installCalls
          (installCompiler (recordingBackend ["mingw", "gdb"])
            (start [])).2.trace =
        installCalls (start ([] : List String)).trace ++
          ["mingw", "visualstudio2022buildtools"] ∧
      (installCompiler (recordingBackend ["mingw", "gdb"])
          (start [])).2.world =
        ["mingw", "visualstudio2022buildtools"].foldl
          (fun w pkg =>
            ((recordingBackend ["mingw", "gdb"]).Install pkg w).2)
          (start ([] : List String)).world) ∧
    ((InstallCDevelopmentTools (recordingBackend ["mingw", "gdb"])
        (start [])).1 = none ∧
      installCalls
          (InstallCDevelopmentTools (recordingBackend ["mingw", "gdb"])
            (start [])).2.trace =
        installCalls (start ([] : List String)).trace ++
          ["mingw", "visualstudio2022buildtools",
            "cmake", "make", "git", "vscode", "clang-format", "gdb"] ∧
      (InstallCDevelopmentTools (recordingBackend ["mingw", "gdb"])
          (start [])).2.world =
        ["mingw", "visualstudio2022buildtools",
            "cmake", "make", "git", "vscode", "clang-format", "gdb"].foldl
          (fun w pkg =>
            ((recordingBackend ["mingw", "gdb"]).Install pkg w).2)
          (start ([] : List String)).world)) :=
  ⟨by simp [recordingBackend], by simp [recordingBackend],
    installCDevelopmentTools_continues_after_fallback
      (recordingBackend ["mingw", "gdb"]) (start [])
      (by simp [recordingBackend]) (by simp [recordingBackend])⟩

/-- C3: on every backend, whatever each call returns, `installDevelopmentTools`
returns no error and calls `Install` exactly once for each of `cmake`, `make`,
`git`, `vscode`, `clang-format`, `gdb`, in that order and for nothing else.
The calls are really made, each on the state the one before it left: the
backend ends in the state that applying `Install` to the six tools in turn
produces, so a failed tool stops nothing after it. -/
theorem installDevelopmentTools_attempts_every_tool {σ : Type}
    (pm : PackageManager σ) (r : Traced σ) :
    (installDevelopmentTools pm r).1 = none ∧
      installCalls (installDevelopmentTools pm r).2.trace =
        installCalls r.trace ++
          ["cmake", "make", "git", "vscode", "clang-format", "gdb"] ∧
      (installDevelopmentTools pm r).2.world =
        ["cmake", "make", "git", "vscode", "clang-format", "gdb"].foldl
          (fun w tool => (pm.Install tool w).2) r.world := by
  refine ⟨rfl, ?_, ?_⟩
  · rw [installDevelopmentTools_calls]
    rfl
  · rw [installDevelopmentTools_world]
    rfl

/-- C4: on a backend on which every `Install` call succeeds,
`InstallCDevelopmentTools` returns no error and its `Install` calls are
exactly `mingw`, `cmake`, `make`, `git`, `vscode`, `clang-format`, `gdb` in
that order; `visualstudio2022buildtools` is not among them.  The calls are
really made: the backend ends in the state that applying `Install` to those
seven packages in turn produces. -/
theorem installCDevelopmentTools_all_succeed {σ : Type}
    (pm : PackageManager σ) (r : Traced σ)
    (hAll : ∀ (pkg : String) (w : σ), (pm.Install pkg w).1 = none) :
    (InstallCDevelopmentTools pm r).1 = none ∧
      installCalls (InstallCDevelopmentTools pm r).2.trace =
        installCalls r.trace ++
          ["mingw", "cmake", "make", "git", "vscode", "clang-format", "gdb"] ∧
      "visualstudio2022buildtools" ∉
        ["mingw", "cmake", "make", "git", "vscode", "clang-format", "gdb"] ∧
      (InstallCDevelopmentTools pm r).2.world =
        ["mingw", "cmake", "make", "git", "vscode", "clang-format", "gdb"].foldl
          (fun w pkg => (pm.Install pkg w).2) r.world := by
  have hc := installCompiler_primary_ok pm
    (println "=== Setting up C Development Environment ===" r) (hAll _ _)
  have hw := installCompiler_primary_ok_world pm
    (println "=== Setting up C Development Environment ===" r) (hAll _ _)
  have hrun := installCDevelopmentTools_of_compiler_ok pm r hc.1
  have hrunw := installCDevelopmentTools_of_compiler_ok_world pm r hc.1
  refine ⟨hrun.1, ?_, by decide, ?_⟩
  · rw [hrun.2, hc.2, installCalls_println]
    simp [tools]
  · rw [hrunw, hw]
    rfl

theorem installCDevelopmentTools_all_succeed_witness :
    (∀ (pkg : String) (w : List String), ((recordingBackend []).Install pkg w).1 = none) ∧
    ((InstallCDevelopmentTools (recordingBackend []) (start [])).1 = none ∧
      installCalls (InstallCDevelopmentTools (recordingBackend []) (start [])).2.trace =
        installCalls (start ([] : List String)).trace ++
          ["mingw", "cmake", "make", "git", "vscode", "clang-format", "gdb"] ∧
      "visualstudio2022buildtools" ∉
        ["mingw", "cmake", "make", "git", "vscode", "clang-format", "gdb"] ∧
      (InstallCDevelopmentTools (recordingBackend []) (start [])).2.world =
        ["mingw", "cmake", "make", "git", "vscode", "clang-format", "gdb"].foldl
          (fun w pkg => ((recordingBackend []).Install pkg w).2)
          (start ([] : List String)).world) :=
  ⟨fun _ _ => by simp [recordingBackend],
    installCDevelopmentTools_all_succeed (recordingBackend []) (start [])
      (fun _ _ => by simp [recordingBackend])⟩

/-- C9: on every backend, the package names passed to `Install` during one
run of `InstallCDevelopmentTools` are pairwise distinct: no package is
attempted twice, whether its attempt succeeded or failed. -/
theorem installCDevelopmentTools_no_repeated_install {σ : Type}
    (pm : PackageManager σ) (w : σ) :
    (installCalls (InstallCDevelopmentTools pm (start w)).2.trace).Nodup := by
  have hstart : installCalls
      (println "=== Setting up C Development Environment ===" (start w)).trace = [] := by
    simp [start, installCalls]
  by_cases hPrimary : (pm.Install "mingw" w).1 = none
  · have hc := installCompiler_primary_ok pm
      (println "=== Setting up C Development Environment ===" (start w)) hPrimary
    have hrun := installCDevelopmentTools_of_compiler_ok pm (start w) hc.1
    rw [hrun.2, hc.2, hstart]
    decide
  · by_cases hFallback :
      (pm.Install "visualstudio2022buildtools" (pm.Install "mingw" w).2).1 = none
    · have hc := installCompiler_fallback_ok pm
        (println "=== Setting up C Development Environment ===" (start w)) hPrimary hFallback
      have hrun := installCDevelopmentTools_of_compiler_ok pm (start w) hc.1
      rw [hrun.2, hc.2, hstart]
      decide
    · have hc := installCompiler_both_fail pm
        (println "=== Setting up C Development Environment ===" (start w)) hPrimary hFallback
      have hrun := installCDevelopmentTools_of_compiler_err pm (start w) hc.1
      rw [hrun.2, hc.2, hstart]
      decide

/-! ## Claims about `pkg/installer/installer.go` -/

theorem getAvailablePackageManager_eq {ω : Type} (host : Host ω) (w : ω) :
    GetAvailablePackageManager host w =
      if host.lookPath "winget" w = true then some Manager.WingetManager
      else if host.lookPath "choco" w = true then some Manager.ChocoManager
      else none := rfl

theorem installPackageManager_of_available {ω : Type} (host : Host ω) (r : Traced ω)
    (h : GetAvailablePackageManager host r.world ≠ none) :
    InstallPackageManager host r = (none, r) := by
  simp [InstallPackageManager, h]

theorem installPackageManager_of_absent {ω : Type} (host : Host ω) (r : Traced ω)
    (h : GetAvailablePackageManager host r.world = none) :
    InstallPackageManager host r =
      runCommand host bootstrapArgv
        (println "No package manager found. Installing Chocolatey..." r) := by
  simp [InstallPackageManager, h]

theorem runCommand_of_resolves {ω : Type} (host : Host ω) (argv : List String)
    (r : Traced ω) (h : commandResolves host argv r.world = true) :
    runCommand host argv r =
      ((host.run argv r.world).1,
        { world := (host.run argv r.world).2, trace := r.trace ++ [Event.exec argv] }) := by
  simp [runCommand, commandRun, commandEvent, h]

theorem runCommand_of_not_resolves {ω : Type} (host : Host ω) (argv : List String)
    (r : Traced ω) (h : commandResolves host argv r.world = false) :
    runCommand host argv r =
      (some (notFoundError argv),
        { world := r.world, trace := r.trace ++ [Event.notStarted argv] }) := by
  simp [runCommand, commandRun, commandEvent, h]

theorem commandResolves_bootstrap {ω : Type} (host : Host ω) (w : ω) :
    commandResolves host bootstrapArgv w = host.lookPath "powershell" w := rfl

theorem bootstrapRuns_append (xs ys : List Event) :
    bootstrapRuns (xs ++ ys) = bootstrapRuns xs + bootstrapRuns ys := by
  simp [bootstrapRuns]

theorem bootstrapRuns_println {ω : Type} (t : String) (r : Traced ω) :
    bootstrapRuns (println t r).trace = bootstrapRuns r.trace := by
  simp [bootstrapRuns]

theorem bootstrapRuns_exec_bootstrap : bootstrapRuns [Event.exec bootstrapArgv] = 1 := by
  simp [bootstrapRuns, execCalls]

theorem bootstrapRuns_notStarted (argv : List String) :
    bootstrapRuns [Event.notStarted argv] = 0 := rfl

theorem bootstrapRuns_installPackageManager_le {ω : Type} (host : Host ω) (r : Traced ω) :
    bootstrapRuns (InstallPackageManager host r).2.trace ≤ bootstrapRuns r.trace + 1 := by
  by_cases h : GetAvailablePackageManager host r.world = none
  · rw [installPackageManager_of_absent host r h]
    cases hp : commandResolves host bootstrapArgv
        (println "No package manager found. Installing Chocolatey..." r).world with
    | true =>
      rw [runCommand_of_resolves host bootstrapArgv _ hp]
      simp only [bootstrapRuns_append, bootstrapRuns_println, bootstrapRuns_exec_bootstrap]
      exact Nat.le_refl _
    | false =>
      rw [runCommand_of_not_resolves host bootstrapArgv _ hp]
      simp only [bootstrapRuns_append, bootstrapRuns_println, bootstrapRuns_notStarted]
      omega
  · rw [installPackageManager_of_available host r h]
    exact Nat.le_succ _

/-- C5: `GetAvailablePackageManager` returns the winget backend whenever
`winget` is resolvable, the Chocolatey backend when `winget` is not resolvable
and `choco` is, and `nil` exactly when neither is; two hosts that agree on
these two presence checks get the same answer. -/
theorem getAvailablePackageManager_priority {ω : Type} (host : Host ω) (w : ω) :
    (host.lookPath "winget" w = true →
      GetAvailablePackageManager host w = some Manager.WingetManager) ∧
    (host.lookPath "winget" w = false → host.lookPath "choco" w = true →
      GetAvailablePackageManager host w = some Manager.ChocoManager) ∧
    (GetAvailablePackageManager host w = none ↔
      host.lookPath "winget" w = false ∧ host.lookPath "choco" w = false) ∧
    (∀ (ω' : Type) (host' : Host ω') (w' : ω'),
      host'.lookPath "winget" w' = host.lookPath "winget" w →
      host'.lookPath "choco" w' = host.lookPath "choco" w →
      GetAvailablePackageManager host' w' = GetAvailablePackageManager host w) := by
  refine ⟨?_, ?_, ?_, ?_⟩
  · intro hw
    simp [getAvailablePackageManager_eq, hw]
  · intro hw hc
    simp [getAvailablePackageManager_eq, hw, hc]
  · rw [getAvailablePackageManager_eq]
    cases hw : host.lookPath "winget" w <;> cases hc : host.lookPath "choco" w <;> simp
  · intro ω' host' w' hw hc
    rw [getAvailablePackageManager_eq, getAvailablePackageManager_eq, hw, hc]

/-- C6: whenever `GetAvailablePackageManager` returns a backend,
`InstallPackageManager` returns no error and does nothing: the host state and
the trace are unchanged, so no process (in particular no Chocolatey bootstrap)
is started. -/
theorem installPackageManager_noop_when_available {ω : Type} (host : Host ω) (r : Traced ω)
    (h : GetAvailablePackageManager host r.world ≠ none) :
    (InstallPackageManager host r).1 = none ∧
      (InstallPackageManager host r).2 = r ∧
      execCalls (InstallPackageManager host r).2.trace = execCalls r.trace ∧
      bootstrapRuns (InstallPackageManager host r).2.trace = bootstrapRuns r.trace := by
  rw [installPackageManager_of_available host r h]
  exact ⟨rfl, rfl, rfl, rfl⟩

theorem installPackageManager_noop_when_available_witness :
    GetAvailablePackageManager (pathHost none ["choco"]) (start ["winget"]).world ≠ none ∧
    ((InstallPackageManager (pathHost none ["choco"]) (start ["winget"])).1 = none ∧
      (InstallPackageManager (pathHost none ["choco"]) (start ["winget"])).2 =
        start ["winget"] ∧
      execCalls (InstallPackageManager (pathHost none ["choco"]) (start ["winget"])).2.trace =
        execCalls (start ["winget"]).trace ∧
      bootstrapRuns
          (InstallPackageManager (pathHost none ["choco"]) (start ["winget"])).2.trace =
        bootstrapRuns (start ["winget"]).trace) :=
  ⟨by simp [getAvailablePackageManager_eq, pathHost, start],
    installPackageManager_noop_when_available (pathHost none ["choco"]) (start ["winget"])
      (by simp [getAvailablePackageManager_eq, pathHost, start])⟩

/-- C7, as stated, fails: on a host where `powershell` is resolvable, neither
`winget` nor `choco` is, and the bootstrap process exits with an error without
making `choco` resolvable, two calls of `InstallPackageManager` in a row start
the bootstrap process twice. -/
theorem installPackageManager_twice_bootstraps_twice :
    bootstrapRuns
        (InstallPackageManager (pathHost (some "exit status 1") [])
          (InstallPackageManager (pathHost (some "exit status 1") [])
            (start ["powershell"])).2).2.trace
      = 2 ∧
    ¬ bootstrapRuns
        (InstallPackageManager (pathHost (some "exit status 1") [])
          (InstallPackageManager (pathHost (some "exit status 1") [])
            (start ["powershell"])).2).2.trace
      ≤ bootstrapRuns (start ["powershell"]).trace + 1 := by
  have h1 : GetAvailablePackageManager (pathHost (some "exit status 1") [])
      (start ["powershell"]).world = none := by
    simp [getAvailablePackageManager_eq, pathHost, start]
  have hr1 : commandResolves (pathHost (some "exit status 1") []) bootstrapArgv
      (println "No package manager found. Installing Chocolatey..."
        (start ["powershell"])).world = true := by
    simp [commandResolves_bootstrap, pathHost, start]
  have e1 := (installPackageManager_of_absent _ _ h1).trans
    (runCommand_of_resolves _ _ _ hr1)
  have h2 : GetAvailablePackageManager (pathHost (some "exit status 1") [])
      (InstallPackageManager (pathHost (some "exit status 1") [])
        (start ["powershell"])).2.world = none := by
    rw [e1]
    simp [getAvailablePackageManager_eq, pathHost, start, bootstrapArgv]
  have hr2 : commandResolves (pathHost (some "exit status 1") []) bootstrapArgv
      (println "No package manager found. Installing Chocolatey..."
        (InstallPackageManager (pathHost (some "exit status 1") [])
          (start ["powershell"])).2).world = true := by
    rw [e1, commandResolves_bootstrap]
    simp [pathHost, start, bootstrapArgv]
  have e2 := (installPackageManager_of_absent _ _ h2).trans
    (runCommand_of_resolves _ _ _ hr2)
  have hcount : bootstrapRuns
      (InstallPackageManager (pathHost (some "exit status 1") [])
        (InstallPackageManager (pathHost (some "exit status 1") [])
          (start ["powershell"])).2).2.trace = 2 := by
    rw [e2]
    simp only [bootstrapRuns_append, bootstrapRuns_println, bootstrapRuns_exec_bootstrap]
    rw [e1]
    simp only [bootstrapRuns_append, bootstrapRuns_println, bootstrapRuns_exec_bootstrap]
    rfl
  refine ⟨hcount, ?_⟩
  rw [hcount]
  simp [start, bootstrapRuns, execCalls]

/-- C7, amended: two calls of `InstallPackageManager` in a row start the
bootstrap process at most once in total, provided `winget` or `choco` is
resolvable when the first call has returned (one was there from the start, or
the bootstrap made it so). -/
theorem installPackageManager_twice_at_most_once {ω : Type} (host : Host ω)
    (r : Traced ω)
    (hAfter :
      GetAvailablePackageManager host (InstallPackageManager host r).2.world ≠ none) :
    bootstrapRuns (InstallPackageManager host (InstallPackageManager host r).2).2.trace
      ≤ bootstrapRuns r.trace + 1 := by
  rw [installPackageManager_of_available host _ hAfter]
  exact bootstrapRuns_installPackageManager_le host r

theorem installPackageManager_twice_at_most_once_witness :
    GetAvailablePackageManager (pathHost none ["choco"])
      (InstallPackageManager (pathHost none ["choco"]) (start ["powershell"])).2.world
        ≠ none ∧
    GetAvailablePackageManager (pathHost none ["choco"]) (start ["powershell"]).world
      = none ∧
    bootstrapRuns
        (InstallPackageManager (pathHost none ["choco"])
          (InstallPackageManager (pathHost none ["choco"]) (start ["powershell"])).2).2.trace
      ≤ bootstrapRuns (start ["powershell"]).trace + 1 := by
  have h1 : GetAvailablePackageManager (pathHost none ["choco"])
      (start ["powershell"]).world = none := by
    simp [getAvailablePackageManager_eq, pathHost, start]
  have hr1 : commandResolves (pathHost none ["choco"]) bootstrapArgv
      (println "No package manager found. Installing Chocolatey..."
        (start ["powershell"])).world = true := by
    simp [commandResolves_bootstrap, pathHost, start]
  have e1 := (installPackageManager_of_absent _ _ h1).trans
    (runCommand_of_resolves _ _ _ hr1)
  have hAfter : GetAvailablePackageManager (pathHost none ["choco"])
      (InstallPackageManager (pathHost none ["choco"]) (start ["powershell"])).2.world
        ≠ none := by
    rw [e1]
    simp [getAvailablePackageManager_eq, pathHost, start, bootstrapArgv]
  exact ⟨hAfter, h1,
    installPackageManager_twice_at_most_once (pathHost none ["choco"]) (start ["powershell"])
      hAfter⟩

/-- C8, as stated, fails: on a host where neither `winget` nor `choco` nor
`powershell` is resolvable, `InstallPackageManager` prints its notice, starts
no process at all and returns the lookup error. -/
theorem installPackageManager_without_powershell :
    (pathHost none ["choco"]).lookPath "winget" (start ([] : List String)).world = false ∧
    (pathHost none ["choco"]).lookPath "choco" (start ([] : List String)).world = false ∧
    execCalls (InstallPackageManager (pathHost none ["choco"]) (start [])).2.trace = [] ∧
    bootstrapRuns (InstallPackageManager (pathHost none ["choco"]) (start [])).2.trace = 0 ∧
    (InstallPackageManager (pathHost none ["choco"]) (start [])).2.world = [] ∧
    (InstallPackageManager (pathHost none ["choco"]) (start [])).1 ≠ none := by
  have h1 : GetAvailablePackageManager (pathHost none ["choco"])
      (start ([] : List String)).world = none := by
    simp [getAvailablePackageManager_eq, pathHost, start]
  have hr1 : commandResolves (pathHost none ["choco"]) bootstrapArgv
      (println "No package manager found. Installing Chocolatey..."
        (start ([] : List String))).world = false := by
    simp [commandResolves_bootstrap, pathHost, start]
  have e1 := (installPackageManager_of_absent _ _ h1).trans
    (runCommand_of_not_resolves _ _ _ hr1)
  rw [e1]
  refine ⟨by simp [pathHost, start], by simp [pathHost, start], ?_, ?_, rfl, ?_⟩
  · simp [start, execCalls]
  · simp [start, bootstrapRuns, execCalls]
  · simp

/-- C8, amended: when neither `winget` nor `choco` is resolvable and
`powershell` is, `InstallPackageManager` prints its notice and starts the
Chocolatey bootstrap process exactly once, makes no `PackageManager.Install`
call, and returns exactly the error of that process run, leaving the host as
the process left it: an error if and only if the bootstrap process fails. -/
theorem installPackageManager_bootstraps_once {ω : Type} (host : Host ω) (r : Traced ω)
    (hWinget : host.lookPath "winget" r.world = false)
    (hChoco : host.lookPath "choco" r.world = false)
    (hPowershell : host.lookPath "powershell" r.world = true) :
    (InstallPackageManager host r).2.trace =
        r.trace ++
          [Event.stdout "No package manager found. Installing Chocolatey...\n",
            Event.exec bootstrapArgv] ∧
      execCalls (InstallPackageManager host r).2.trace =
        execCalls r.trace ++ [bootstrapArgv] ∧
      installCalls (InstallPackageManager host r).2.trace = installCalls r.trace ∧
      (InstallPackageManager host r).1 = (host.run bootstrapArgv r.world).1 ∧
      (InstallPackageManager host r).2.world = (host.run bootstrapArgv r.world).2 ∧
      ((InstallPackageManager host r).1 ≠ none ↔
        (host.run bootstrapArgv r.world).1 ≠ none) := by
  have habsent : GetAvailablePackageManager host r.world = none := by
    simp [getAvailablePackageManager_eq, hWinget, hChoco]
  have hres : commandResolves host bootstrapArgv
      (println "No package manager found. Installing Chocolatey..." r).world = true := by
    rw [commandResolves_bootstrap]
    exact hPowershell
  rw [(installPackageManager_of_absent host r habsent).trans
    (runCommand_of_resolves host bootstrapArgv _ hres)]
  refine ⟨?_, ?_, ?_, rfl, rfl, Iff.rfl⟩
  · simp [println, printf]
  · simp [execCalls]
  · simp [installCalls]

theorem installPackageManager_bootstraps_once_witness :
    (pathHost none ["choco"]).lookPath "winget" (start ["powershell"]).world = false ∧
    (pathHost none ["choco"]).lookPath "choco" (start ["powershell"]).world = false ∧
    (pathHost none ["choco"]).lookPath "powershell" (start ["powershell"]).world = true ∧
    ((InstallPackageManager (pathHost none ["choco"]) (start ["powershell"])).2.trace =
        (start ["powershell"]).trace ++
          [Event.stdout "No package manager found. Installing Chocolatey...\n",
            Event.exec bootstrapArgv] ∧
      execCalls (InstallPackageManager (pathHost none ["choco"])
          (start ["powershell"])).2.trace =
        execCalls (start ["powershell"]).trace ++ [bootstrapArgv] ∧
      installCalls (InstallPackageManager (pathHost none ["choco"])
          (start ["powershell"])).2.trace =
        installCalls (start ["powershell"]).trace ∧
      (InstallPackageManager (pathHost none ["choco"]) (start ["powershell"])).1 =
        ((pathHost none ["choco"]).run bootstrapArgv (start ["powershell"]).world).1 ∧
      (InstallPackageManager (pathHost none ["choco"]) (start ["powershell"])).2.world =
        ((pathHost none ["choco"]).run bootstrapArgv (start ["powershell"]).world).2 ∧
      ((InstallPackageManager (pathHost none ["choco"]) (start ["powershell"])).1 ≠ none ↔
        ((pathHost none ["choco"]).run bootstrapArgv
          (start ["powershell"]).world).1 ≠ none)) :=
  ⟨by simp [pathHost, start], by simp [pathHost, start], by simp [pathHost, start],
    installPackageManager_bootstraps_once (pathHost none ["choco"]) (start ["powershell"])
      (by simp [pathHost, start]) (by simp [pathHost, start]) (by simp [pathHost, start])⟩

/-- C10, as stated, fails: on a host where neither `winget` nor `choco` is
resolvable, `WingetManager.Install` and `ChocoManager.Install` each print their
notice, start no process and return the lookup error. -/
theorem install_without_executable :
    (execCalls (WingetManager.Install failingHost "git" (start [])).2.trace = [] ∧
      (WingetManager.Install failingHost "git" (start [])).1 ≠ none) ∧
    (execCalls (ChocoManager.Install failingHost "git" (start [])).2.trace = [] ∧
      (ChocoManager.Install failingHost "git" (start [])).1 ≠ none) := by
  refine ⟨⟨?_, ?_⟩, ⟨?_, ?_⟩⟩
  · simp [WingetManager.Install, runCommand, commandEvent, commandResolves, failingHost,
      start, execCalls, printf]
  · simp [WingetManager.Install, runCommand, commandRun, commandResolves, failingHost,
      start]
  · simp [ChocoManager.Install, runCommand, commandEvent, commandResolves, failingHost,
      start, execCalls, printf]
  · simp [ChocoManager.Install, runCommand, commandRun, commandResolves, failingHost,
      start]

/-- C10, amended: for every package name `p`, on a host where `winget` is
resolvable `WingetManager.Install` prints its notice and starts exactly one
process, with arguments `winget install p --accept-package-agreements
--accept-source-agreements`; where `choco` is resolvable `ChocoManager.Install`
starts exactly one with `choco install p -y`.  Each returns exactly the error
of that one run and leaves the host as the process left it, so an error if and
only if the process run fails; neither starts the process again nor captures
its output. -/
theorem install_runs_exactly_one_process {ω : Type} (host : Host ω) (p : String)
    (r : Traced ω) :
    (host.lookPath "winget" r.world = true →
      ((WingetManager.Install host p r).2.trace =
          r.trace ++
            [Event.stdout ("Installing " ++ p ++ " via winget...\n"),
              Event.exec
                ["winget", "install", p, "--accept-package-agreements",
                  "--accept-source-agreements"]] ∧
        execCalls (WingetManager.Install host p r).2.trace =
          execCalls r.trace ++
            [["winget", "install", p, "--accept-package-agreements",
              "--accept-source-agreements"]] ∧
        WingetManager.Install host p r =
          ((Manager.toPackageManager host Manager.WingetManager).Install p r) ∧
        (WingetManager.Install host p r).1 =
          (host.run
            ["winget", "install", p, "--accept-package-agreements",
              "--accept-source-agreements"] r.world).1 ∧
        (WingetManager.Install host p r).2.world =
          (host.run
            ["winget", "install", p, "--accept-package-agreements",
              "--accept-source-agreements"] r.world).2)) ∧
    (host.lookPath "choco" r.world = true →
      ((ChocoManager.Install host p r).2.trace =
          r.trace ++
            [Event.stdout ("Installing " ++ p ++ " via Chocolatey...\n"),
              Event.exec ["choco", "install", p, "-y"]] ∧
        execCalls (ChocoManager.Install host p r).2.trace =
          execCalls r.trace ++ [["choco", "install", p, "-y"]] ∧
        ChocoManager.Install host p r =
          ((Manager.toPackageManager host Manager.ChocoManager).Install p r) ∧
        (ChocoManager.Install host p r).1 =
          (host.run ["choco", "install", p, "-y"] r.world).1 ∧
        (ChocoManager.Install host p r).2.world =
          (host.run ["choco", "install", p, "-y"] r.world).2)) := by
  constructor
  · intro hWinget
    have hres : commandResolves host
        ["winget", "install", p, "--accept-package-agreements",
          "--accept-source-agreements"]
        (printf ("Installing " ++ p ++ " via winget...\n") r).world = true := hWinget
    have e : WingetManager.Install host p r = _ :=
      runCommand_of_resolves host _ (printf ("Installing " ++ p ++ " via winget...\n") r) hres
    rw [e]
    refine ⟨?_, ?_, e.symm, rfl, rfl⟩
    · simp [printf]
    · simp [execCalls]
  · intro hChoco
    have hres : commandResolves host ["choco", "install", p, "-y"]
        (printf ("Installing " ++ p ++ " via Chocolatey...\n") r).world = true := hChoco
    have e : ChocoManager.Install host p r = _ :=
      runCommand_of_resolves host _
        (printf ("Installing " ++ p ++ " via Chocolatey...\n") r) hres
    rw [e]
    refine ⟨?_, ?_, e.symm, rfl, rfl⟩
    · simp [printf]
    · simp [execCalls]

theorem install_runs_exactly_one_process_witness :
    (pathHost none []).lookPath "winget" (start ["winget", "choco"]).world = true ∧
    (pathHost none []).lookPath "choco" (start ["winget", "choco"]).world = true ∧
    execCalls (WingetManager.Install (pathHost none []) "git"
        (start ["winget", "choco"])).2.trace =
      execCalls (start ["winget", "choco"]).trace ++
        [["winget", "install", "git", "--accept-package-agreements",
          "--accept-source-agreements"]] ∧
    execCalls (ChocoManager.Install (pathHost none []) "git"
        (start ["winget", "choco"])).2.trace =
      execCalls (start ["winget", "choco"]).trace ++ [["choco", "install", "git", "-y"]] :=
  ⟨by simp [pathHost, start], by simp [pathHost, start],
    ((install_runs_exactly_one_process (pathHost none []) "git"
      (start ["winget", "choco"])).1 (by simp [pathHost, start])).2.1,
    ((install_runs_exactly_one_process (pathHost none []) "git"
      (start ["winget", "choco"])).2 (by simp [pathHost, start])).2.1⟩

/-! ## Trace lemmas for `pkg/python/python.go` -/

@[simp] theorem pipInstallCalls_append (xs ys : List Event) :
    pipInstallCalls (xs ++ ys) = pipInstallCalls xs ++ pipInstallCalls ys := by
  simp [pipInstallCalls]

@[simp] theorem pipInstallCalls_printf {σ : Type} (t : String) (r : Traced σ) :
    pipInstallCalls (printf t r).trace = pipInstallCalls r.trace := by
  simp [pipInstallCalls]

@[simp] theorem pipInstallCalls_println {σ : Type} (t : String) (r : Traced σ) :
    pipInstallCalls (println t r).trace = pipInstallCalls r.trace := by
  simp [pipInstallCalls]

theorem pipInstallCalls_pip_install {σ : Type} (sh : Host σ) (pkg : String) (w : σ) :
    pipInstallCalls [commandEvent sh ["python", "-m", "pip", "install", pkg] w] = [pkg] := by
  simp [pipInstallCalls, pipInstallTarget, runAttempts]

theorem pipInstallCalls_installPackagesLoop {σ : Type} (sh : Host σ) (pkgs : List String) :
    ∀ r : Traced σ,
      pipInstallCalls (installPackagesLoop sh pkgs r).trace = pipInstallCalls r.trace ++ pkgs := by
  induction pkgs with
  | nil => intro r; simp [installPackagesLoop]
  | cons pkg rest ih =>
    intro r
    rcases h : commandRun sh ["python", "-m", "pip", "install", pkg] r.world with ⟨e, w⟩
    cases e with
    | none =>
      simp [installPackagesLoop, runCommand, h, ih, pipInstallCalls_pip_install]
    | some m =>
      simp [installPackagesLoop, runCommand, h, ih, pipInstallCalls_pip_install]

theorem runAttempts_installPackagesLoop {σ : Type} (sh : Host σ) (pkgs : List String) :
    ∀ r : Traced σ,
      runAttempts (installPackagesLoop sh pkgs r).trace =
        runAttempts r.trace ++
          pkgs.map (fun pkg => ["python", "-m", "pip", "install", pkg]) := by
  induction pkgs with
  | nil => intro r; simp [installPackagesLoop]
  | cons pkg rest ih =>
    intro r
    rcases h : commandRun sh ["python", "-m", "pip", "install", pkg] r.world with ⟨e, w⟩
    cases e with
    | none => simp [installPackagesLoop, runCommand, h, ih, runAttempts]
    | some m => simp [installPackagesLoop, runCommand, h, ih, runAttempts]

theorem installCalls_installPackagesLoop {σ : Type} (sh : Host σ) (pkgs : List String) :
    ∀ r : Traced σ, installCalls (installPackagesLoop sh pkgs r).trace = installCalls r.trace := by
  induction pkgs with
  | nil => intro r; simp [installPackagesLoop]
  | cons pkg rest ih =>
    intro r
    rcases h : commandRun sh ["python", "-m", "pip", "install", pkg] r.world with ⟨e, w⟩
    cases e with
    | none => simp [installPackagesLoop, runCommand, h, ih, installCalls]
    | some m => simp [installPackagesLoop, runCommand, h, ih, installCalls]

theorem installPackagesLoop_world {σ : Type} (sh : Host σ) (pkgs : List String) :
    ∀ r : Traced σ,
      (installPackagesLoop sh pkgs r).world =
        pkgs.foldl
          (fun w pkg => (commandRun sh ["python", "-m", "pip", "install", pkg] w).2)
          r.world := by
  induction pkgs with
  | nil => intro r; simp [installPackagesLoop]
  | cons pkg rest ih =>
    intro r
    rcases h : commandRun sh ["python", "-m", "pip", "install", pkg] r.world with ⟨e, w⟩
    cases e with
    | none => simp [installPackagesLoop, runCommand, h, ih]
    | some m => simp [installPackagesLoop, runCommand, h, ih]

/-! ## `InstallPython`, by outcome of its first two steps -/

theorem installPython_of_python_err {σ : Type} (pm : PackageManager σ) (sh : Host σ)
    (r : Traced σ) (msg : String) (w1 : σ)
    (h1 : pm.Install "python" r.world = (some msg, w1)) :
    InstallPython pm sh r =
      (some ("failed to install Python: " ++ msg),
        { world := w1,
          trace := r.trace ++
            [Event.stdout "=== Setting up Python Development Environment ===\n",
              Event.install "python"] }) := by
  simp [InstallPython, callInstall, h1, println, printf]

theorem installPython_of_ensurepip_err {σ : Type} (pm : PackageManager σ) (sh : Host σ)
    (r : Traced σ) (w1 w2 w3 : σ) (msg2 msg3 : String)
    (h1 : pm.Install "python" r.world = (none, w1))
    (h2 : commandRun sh ["python", "-m", "pip", "--version"] w1 = (some msg2, w2))
    (h3 : commandRun sh ["python", "-m", "ensurepip", "--upgrade"] w2 = (some msg3, w3)) :
    InstallPython pm sh r =
      (some ("failed to ensure pip is installed: " ++ msg3),
        { world := w3,
          trace := r.trace ++
            [Event.stdout "=== Setting up Python Development Environment ===\n",
              Event.install "python",
              commandEvent sh ["python", "-m", "pip", "--version"] w1,
              Event.stdout "Installing pip...\n",
              commandEvent sh ["python", "-m", "ensurepip", "--upgrade"] w2] }) := by
  simp [InstallPython, callInstall, ensurePipInstalled, runCommand, h1, h2, h3, println, printf]

theorem pipInstallCalls_probe_events {σ : Type} (sh : Host σ) (w1 w2 : σ) :
    pipInstallCalls
        [Event.stdout "=== Setting up Python Development Environment ===\n",
          Event.install "python",
          commandEvent sh ["python", "-m", "pip", "--version"] w1,
          Event.stdout "Installing pip...\n",
          commandEvent sh ["python", "-m", "ensurepip", "--upgrade"] w2] = [] := by
  simp [pipInstallCalls, runAttempts, pipInstallTarget]

theorem installPython_of_pip_present {σ : Type} (pm : PackageManager σ) (sh : Host σ)
    (r : Traced σ) (w1 w2 : σ)
    (h1 : pm.Install "python" r.world = (none, w1))
    (h2 : commandRun sh ["python", "-m", "pip", "--version"] w1 = (none, w2)) :
    (InstallPython pm sh r).1 = none ∧
      installCalls (InstallPython pm sh r).2.trace = installCalls r.trace ++ ["python"] ∧
      pipInstallCalls (InstallPython pm sh r).2.trace = pipInstallCalls r.trace ++ packages ∧
      (InstallPython pm sh r).2.world =
        packages.foldl
          (fun w pkg => (commandRun sh ["python", "-m", "pip", "install", pkg] w).2) w2 := by
  have hp : pipInstallCalls
      [Event.install "python", commandEvent sh ["python", "-m", "pip", "--version"] w1]
        = [] := by
    simp [pipInstallCalls, runAttempts, pipInstallTarget]
  simp [InstallPython, callInstall, ensurePipInstalled, runCommand, installEssentialPackages,
    h1, h2, pipInstallCalls_installPackagesLoop, installCalls_installPackagesLoop,
    installPackagesLoop_world, hp, installCalls]

theorem installPython_of_pip_installed {σ : Type} (pm : PackageManager σ) (sh : Host σ)
    (r : Traced σ) (w1 w2 w3 : σ) (msg2 : String)
    (h1 : pm.Install "python" r.world = (none, w1))
    (h2 : commandRun sh ["python", "-m", "pip", "--version"] w1 = (some msg2, w2))
    (h3 : commandRun sh ["python", "-m", "ensurepip", "--upgrade"] w2 = (none, w3)) :
    (InstallPython pm sh r).1 = none ∧
      installCalls (InstallPython pm sh r).2.trace = installCalls r.trace ++ ["python"] ∧
      pipInstallCalls (InstallPython pm sh r).2.trace = pipInstallCalls r.trace ++ packages ∧
      (InstallPython pm sh r).2.world =
        packages.foldl
          (fun w pkg => (commandRun sh ["python", "-m", "pip", "install", pkg] w).2) w3 := by
  have hp : pipInstallCalls
      [Event.install "python", commandEvent sh ["python", "-m", "pip", "--version"] w1]
        = [] := by
    simp [pipInstallCalls, runAttempts, pipInstallTarget]
  have he : pipInstallCalls
      [commandEvent sh ["python", "-m", "ensurepip", "--upgrade"] w2] = [] := by
    simp [pipInstallCalls, runAttempts, pipInstallTarget]
  simp [InstallPython, callInstall, ensurePipInstalled, runCommand, installEssentialPackages,
    h1, h2, h3, pipInstallCalls_installPackagesLoop, installCalls_installPackagesLoop,
    installPackagesLoop_world, hp, he, installCalls]

/-! ## The command layer before a package manager is chosen -/

theorem setupCEnvironment_of_bootstrap_err {ω : Type} (host : Host ω)
    (rr : Traced (Traced ω)) (msg : String) (t : Traced ω)
    (h : InstallPackageManager host rr.world = (some msg, t)) :
    setupCEnvironment host rr =
      (some ("failed to install package manager: " ++ msg),
        { world := t,
          trace := (println "⚙️  Setting up C development environment..." rr).trace }) := by
  simp [setupCEnvironment, h]

theorem setupCEnvironment_of_no_manager {ω : Type} (host : Host ω)
    (rr : Traced (Traced ω)) (t : Traced ω)
    (h : InstallPackageManager host rr.world = (none, t))
    (hSel : GetAvailablePackageManager host t.world = none) :
    setupCEnvironment host rr =
      (some "no package manager available",
        { world := t,
          trace := (println "⚙️  Setting up C development environment..." rr).trace }) := by
  simp [setupCEnvironment, h, hSel]

theorem setupPythonEnvironment_of_bootstrap_err {ω : Type} (host : Host ω)
    (rr : Traced (Traced ω)) (msg : String) (t : Traced ω)
    (h : InstallPackageManager host rr.world = (some msg, t)) :
    setupPythonEnvironment host rr =
      (some ("failed to install package manager: " ++ msg),
        { world := t,
          trace := (println "🐍 Setting up Python development environment..." rr).trace }) := by
  simp [setupPythonEnvironment, h]

theorem setupPythonEnvironment_of_no_manager {ω : Type} (host : Host ω)
    (rr : Traced (Traced ω)) (t : Traced ω)
    (h : InstallPackageManager host rr.world = (none, t))
    (hSel : GetAvailablePackageManager host t.world = none) :
    setupPythonEnvironment host rr =
      (some "no package manager available",
        { world := t,
          trace := (println "🐍 Setting up Python development environment..." rr).trace }) := by
  simp [setupPythonEnvironment, h, hSel]

theorem setupPythonEnvironment_of_installPython_err {ω : Type} (host : Host ω)
    (rr : Traced (Traced ω)) (t : Traced ω) (m : Manager)
    (h : InstallPackageManager host rr.world = (none, t))
    (hSel : GetAvailablePackageManager host t.world = some m)
    (hErr : (InstallPython (Manager.toPackageManager host m) (liftHost host)
      { world := t,
        trace := (println "🐍 Setting up Python development environment..." rr).trace }).1
        ≠ none) :
    setupPythonEnvironment host rr =
      InstallPython (Manager.toPackageManager host m) (liftHost host)
        { world := t,
          trace := (println "🐍 Setting up Python development environment..." rr).trace } := by
  rcases hp : InstallPython (Manager.toPackageManager host m) (liftHost host)
      { world := t,
        trace := (println "🐍 Setting up Python development environment..." rr).trace }
    with ⟨e, r2⟩
  rw [hp] at hErr
  cases e with
  | none => exact absurd rfl hErr
  | some msg => simp [setupPythonEnvironment, h, hSel, hp]

theorem installPython_python_fails {σ : Type} (pm : PackageManager σ) (sh : Host σ)
    (r : Traced σ) (hPython : (pm.Install "python" r.world).1 ≠ none) :
    (InstallPython pm sh r).1 ≠ none ∧
      installCalls (InstallPython pm sh r).2.trace = installCalls r.trace ++ ["python"] ∧
      execCalls (InstallPython pm sh r).2.trace = execCalls r.trace ∧
      pipInstallCalls (InstallPython pm sh r).2.trace = pipInstallCalls r.trace ∧
      runAttempts (InstallPython pm sh r).2.trace = runAttempts r.trace := by
  rcases h1 : pm.Install "python" r.world with ⟨e, w1⟩
  rw [h1] at hPython
  cases e with
  | none => exact absurd rfl hPython
  | some msg =>
    rw [installPython_of_python_err pm sh r msg w1 h1]
    refine ⟨by simp, ?_, ?_, ?_, ?_⟩
    · simp [installCalls]
    · simp [execCalls]
    · simp [pipInstallCalls, runAttempts]
    · simp [runAttempts]

/-! ## Claims about `pkg/python/python.go` and `cmd/commands.go` -/

/-- C11: on a backend on which `Install("python")` fails, `InstallPython`
returns an error after that single `Install` call, starts no process and makes
no `Run()` call at all (no pip probe, no `ensurepip`, no pip package install).
In `setupPythonEnvironment`,
once a package manager has been found and its `Install("python")` fails, the
result is exactly what `InstallPython` returned: an error, with `python` the
only `Install` call, so `InstallPythonTools` is not run and neither `git` nor
`vscode` is attempted. -/
theorem installPython_failure_stops_the_setup {σ : Type} (pm : PackageManager σ)
    (sh : Host σ) (r : Traced σ) {ω : Type} (host : Host ω) (m : Manager)
    (rr : Traced (Traced ω))
    (hPython : (pm.Install "python" r.world).1 ≠ none)
    (hBoot : (InstallPackageManager host rr.world).1 = none)
    (hSel : GetAvailablePackageManager host (InstallPackageManager host rr.world).2.world
      = some m)
    (hSetupPython : ((Manager.toPackageManager host m).Install "python"
      (InstallPackageManager host rr.world).2).1 ≠ none) :
    ((InstallPython pm sh r).1 ≠ none ∧
      installCalls (InstallPython pm sh r).2.trace = installCalls r.trace ++ ["python"] ∧
      execCalls (InstallPython pm sh r).2.trace = execCalls r.trace ∧
      runAttempts (InstallPython pm sh r).2.trace = runAttempts r.trace) ∧
    ((setupPythonEnvironment host rr).1 ≠ none ∧
      setupPythonEnvironment host rr =
        InstallPython (Manager.toPackageManager host m) (liftHost host)
          { world := (InstallPackageManager host rr.world).2,
            trace :=
              (println "🐍 Setting up Python development environment..." rr).trace } ∧
      installCalls (setupPythonEnvironment host rr).2.trace =
        installCalls rr.trace ++ ["python"] ∧
      execCalls (setupPythonEnvironment host rr).2.trace = execCalls rr.trace ∧
      runAttempts (setupPythonEnvironment host rr).2.trace = runAttempts rr.trace) := by
  have hgen := installPython_python_fails pm sh r hPython
  refine ⟨⟨hgen.1, hgen.2.1, hgen.2.2.1, hgen.2.2.2.2⟩, ?_⟩
  rcases hb : InstallPackageManager host rr.world with ⟨e, t⟩
  rw [hb] at hBoot hSel hSetupPython
  simp only at hBoot hSel hSetupPython
  subst hBoot
  have hin := installPython_python_fails (Manager.toPackageManager host m) (liftHost host)
    { world := t,
      trace := (println "🐍 Setting up Python development environment..." rr).trace }
    hSetupPython
  have hset := setupPythonEnvironment_of_installPython_err host rr t m hb hSel hin.1
  rw [hset]
  refine ⟨hin.1, rfl, ?_, ?_, ?_⟩
  · rw [hin.2.1, installCalls_println]
  · rw [hin.2.2.1, execCalls_println]
  · rw [hin.2.2.2.2, runAttempts_println]

theorem installPython_failure_stops_the_setup_witness :
    ((Manager.toPackageManager failingHost Manager.WingetManager).Install "python"
      (start (start ["winget"])).world).1 ≠ none ∧
    (InstallPackageManager failingHost (start (start ["winget"])).world).1 = none ∧
    GetAvailablePackageManager failingHost
      (InstallPackageManager failingHost (start (start ["winget"])).world).2.world
      = some Manager.WingetManager ∧
    ((Manager.toPackageManager failingHost Manager.WingetManager).Install "python"
      (InstallPackageManager failingHost (start (start ["winget"])).world).2).1 ≠ none ∧
    (((InstallPython (Manager.toPackageManager failingHost Manager.WingetManager)
          (liftHost failingHost) (start (start ["winget"]))).1 ≠ none ∧
      installCalls (InstallPython (Manager.toPackageManager failingHost Manager.WingetManager)
          (liftHost failingHost) (start (start ["winget"]))).2.trace =
        installCalls (start (start ["winget"])).trace ++ ["python"] ∧
      execCalls (InstallPython (Manager.toPackageManager failingHost Manager.WingetManager)
          (liftHost failingHost) (start (start ["winget"]))).2.trace =
        execCalls (start (start ["winget"])).trace ∧
      runAttempts (InstallPython (Manager.toPackageManager failingHost Manager.WingetManager)
          (liftHost failingHost) (start (start ["winget"]))).2.trace =
        runAttempts (start (start ["winget"])).trace) ∧
    ((setupPythonEnvironment failingHost (start (start ["winget"]))).1 ≠ none ∧
      setupPythonEnvironment failingHost (start (start ["winget"])) =
        InstallPython (Manager.toPackageManager failingHost Manager.WingetManager)
          (liftHost failingHost)
          { world := (InstallPackageManager failingHost (start (start ["winget"])).world).2,
            trace :=
              (println "🐍 Setting up Python development environment..."
                (start (start ["winget"]))).trace } ∧
      installCalls (setupPythonEnvironment failingHost (start (start ["winget"]))).2.trace =
        installCalls (start (start ["winget"])).trace ++ ["python"] ∧
      execCalls (setupPythonEnvironment failingHost (start (start ["winget"]))).2.trace =
        execCalls (start (start ["winget"])).trace ∧
      runAttempts (setupPythonEnvironment failingHost (start (start ["winget"]))).2.trace =
        runAttempts (start (start ["winget"])).trace)) := by
  have hAvail : GetAvailablePackageManager failingHost (start ["winget"]).world
      = some Manager.WingetManager := by
    simp [getAvailablePackageManager_eq, failingHost, start]
  have hNoop : InstallPackageManager failingHost (start ["winget"]) = (none, start ["winget"]) :=
    installPackageManager_of_available failingHost (start ["winget"]) (by simp [hAvail])
  have hPy : ((Manager.toPackageManager failingHost Manager.WingetManager).Install "python"
      (start ["winget"])).1 ≠ none := by
    simp [Manager.toPackageManager, WingetManager.Install, runCommand, commandRun,
      commandResolves, failingHost, start]
  have hBoot : (InstallPackageManager failingHost (start (start ["winget"])).world).1 = none := by
    show (InstallPackageManager failingHost (start ["winget"])).1 = none
    rw [hNoop]
  have hSel : GetAvailablePackageManager failingHost
      (InstallPackageManager failingHost (start (start ["winget"])).world).2.world
      = some Manager.WingetManager := by
    show GetAvailablePackageManager failingHost
      (InstallPackageManager failingHost (start ["winget"])).2.world = some Manager.WingetManager
    rw [hNoop]
    exact hAvail
  have hPy2 : ((Manager.toPackageManager failingHost Manager.WingetManager).Install "python"
      (InstallPackageManager failingHost (start (start ["winget"])).world).2).1 ≠ none := by
    show ((Manager.toPackageManager failingHost Manager.WingetManager).Install "python"
      (InstallPackageManager failingHost (start ["winget"])).2).1 ≠ none
    rw [hNoop]
    exact hPy
  exact ⟨hPy, hBoot, hSel, hPy2,
    installPython_failure_stops_the_setup
      (Manager.toPackageManager failingHost Manager.WingetManager) (liftHost failingHost)
      (start (start ["winget"])) failingHost Manager.WingetManager (start (start ["winget"]))
      hPy hBoot hSel hPy2⟩

/-- C12: `setupCEnvironment` and `setupPythonEnvironment` each return an error
and make no `PackageManager.Install` call whenever `InstallPackageManager`
returns an error, and also whenever it returns no error but
`GetAvailablePackageManager` then still finds neither `winget` nor `choco`;
what happened on the host is then exactly what `InstallPackageManager` did. -/
theorem setup_stops_without_package_manager {ω : Type} (host : Host ω)
    (rr : Traced (Traced ω))
    (h : (InstallPackageManager host rr.world).1 ≠ none ∨
      ((InstallPackageManager host rr.world).1 = none ∧
        GetAvailablePackageManager host (InstallPackageManager host rr.world).2.world = none)) :
    ((setupCEnvironment host rr).1 ≠ none ∧
      installCalls (setupCEnvironment host rr).2.trace = installCalls rr.trace ∧
      (setupCEnvironment host rr).2.world = (InstallPackageManager host rr.world).2) ∧
    ((setupPythonEnvironment host rr).1 ≠ none ∧
      installCalls (setupPythonEnvironment host rr).2.trace = installCalls rr.trace ∧
      (setupPythonEnvironment host rr).2.world = (InstallPackageManager host rr.world).2) := by
  rcases hb : InstallPackageManager host rr.world with ⟨e, t⟩
  rw [hb] at h
  cases e with
  | some msg =>
    rw [setupCEnvironment_of_bootstrap_err host rr msg t hb,
      setupPythonEnvironment_of_bootstrap_err host rr msg t hb]
    simp
  | none =>
    rcases h with h | ⟨_, hSel⟩
    · exact absurd rfl h
    · rw [setupCEnvironment_of_no_manager host rr t hb hSel,
        setupPythonEnvironment_of_no_manager host rr t hb hSel]
      simp

theorem setup_stops_without_package_manager_witness :
    (((InstallPackageManager (pathHost (some "exit status 1") [])
          (start (start ["powershell"])).world).1 ≠ none ∨
        ((InstallPackageManager (pathHost (some "exit status 1") [])
            (start (start ["powershell"])).world).1 = none ∧
          GetAvailablePackageManager (pathHost (some "exit status 1") [])
            (InstallPackageManager (pathHost (some "exit status 1") [])
              (start (start ["powershell"])).world).2.world = none)) ∧
      (((setupCEnvironment (pathHost (some "exit status 1") []) (start (start ["powershell"]))).1 ≠ none ∧
        installCalls
            (setupCEnvironment (pathHost (some "exit status 1") []) (start (start ["powershell"]))).2.trace =
          installCalls (start (start ["powershell"])).trace ∧
        (setupCEnvironment (pathHost (some "exit status 1") []) (start (start ["powershell"]))).2.world =
          (InstallPackageManager (pathHost (some "exit status 1") [])
            (start (start ["powershell"])).world).2) ∧
      ((setupPythonEnvironment (pathHost (some "exit status 1") [])
            (start (start ["powershell"]))).1 ≠ none ∧
        installCalls
            (setupPythonEnvironment (pathHost (some "exit status 1") [])
              (start (start ["powershell"]))).2.trace =
          installCalls (start (start ["powershell"])).trace ∧
        (setupPythonEnvironment (pathHost (some "exit status 1") [])
            (start (start ["powershell"]))).2.world =
          (InstallPackageManager (pathHost (some "exit status 1") [])
            (start (start ["powershell"])).world).2))) ∧
    (((InstallPackageManager (pathHost none []) (start (start ["powershell"])).world).1 ≠ none ∨
        ((InstallPackageManager (pathHost none []) (start (start ["powershell"])).world).1 = none ∧
          GetAvailablePackageManager (pathHost none [])
            (InstallPackageManager (pathHost none [])
              (start (start ["powershell"])).world).2.world = none)) ∧
      (((setupCEnvironment (pathHost none []) (start (start ["powershell"]))).1 ≠ none ∧
        installCalls (setupCEnvironment (pathHost none []) (start (start ["powershell"]))).2.trace =
          installCalls (start (start ["powershell"])).trace ∧
        (setupCEnvironment (pathHost none []) (start (start ["powershell"]))).2.world =
          (InstallPackageManager (pathHost none []) (start (start ["powershell"])).world).2) ∧
      ((setupPythonEnvironment (pathHost none []) (start (start ["powershell"]))).1 ≠ none ∧
        installCalls (setupPythonEnvironment (pathHost none []) (start (start ["powershell"]))).2.trace =
          installCalls (start (start ["powershell"])).trace ∧
        (setupPythonEnvironment (pathHost none []) (start (start ["powershell"]))).2.world =
          (InstallPackageManager (pathHost none []) (start (start ["powershell"])).world).2))) := by
  have hAbsent : ∀ b : GoError,
      GetAvailablePackageManager (pathHost b []) (start ["powershell"]).world = none := by
    intro b
    simp [getAvailablePackageManager_eq, pathHost, start]
  have hRes : ∀ b : GoError, commandResolves (pathHost b []) bootstrapArgv
      (println "No package manager found. Installing Chocolatey..."
        (start ["powershell"])).world = true := by
    intro b
    simp [commandResolves_bootstrap, pathHost, start]
  have hRun : ∀ b : GoError,
      InstallPackageManager (pathHost b []) (start ["powershell"]) =
        (((pathHost b []).run bootstrapArgv
            (println "No package manager found. Installing Chocolatey..."
              (start ["powershell"])).world).1,
          { world := ((pathHost b []).run bootstrapArgv
              (println "No package manager found. Installing Chocolatey..."
                (start ["powershell"])).world).2,
            trace := (println "No package manager found. Installing Chocolatey..."
              (start ["powershell"])).trace ++ [Event.exec bootstrapArgv] }) :=
    fun b => (installPackageManager_of_absent _ _ (hAbsent b)).trans
      (runCommand_of_resolves _ _ _ (hRes b))
  have hFail : (InstallPackageManager (pathHost (some "exit status 1") [])
        (start (start ["powershell"])).world).1 ≠ none ∨
      ((InstallPackageManager (pathHost (some "exit status 1") [])
          (start (start ["powershell"])).world).1 = none ∧
        GetAvailablePackageManager (pathHost (some "exit status 1") [])
          (InstallPackageManager (pathHost (some "exit status 1") [])
            (start (start ["powershell"])).world).2.world = none) := by
    left
    show (InstallPackageManager (pathHost (some "exit status 1") [])
      (start ["powershell"])).1 ≠ none
    rw [hRun]
    simp [pathHost, bootstrapArgv]
  have hStill : (InstallPackageManager (pathHost none [])
        (start (start ["powershell"])).world).1 ≠ none ∨
      ((InstallPackageManager (pathHost none []) (start (start ["powershell"])).world).1
          = none ∧
        GetAvailablePackageManager (pathHost none [])
          (InstallPackageManager (pathHost none [])
            (start (start ["powershell"])).world).2.world = none) := by
    right
    show (InstallPackageManager (pathHost none []) (start ["powershell"])).1 = none ∧
      GetAvailablePackageManager (pathHost none [])
        (InstallPackageManager (pathHost none []) (start ["powershell"])).2.world = none
    rw [hRun]
    simp [getAvailablePackageManager_eq, pathHost, bootstrapArgv, start]
  exact ⟨⟨hFail,
      setup_stops_without_package_manager (pathHost (some "exit status 1") [])
        (start (start ["powershell"])) hFail⟩,
    ⟨hStill,
      setup_stops_without_package_manager (pathHost none []) (start (start ["powershell"]))
        hStill⟩⟩

/-- C13, as stated, fails: on a backend on which `Install("python")` fails,
and a host on which every pip install would succeed, `InstallPython` returns
an error without running any of the nine pip package installs. -/
theorem installPython_skips_packages_when_python_fails :
    (InstallPython alwaysFails obligingHost (start ())).1 ≠ none ∧
    pipInstallCalls (InstallPython alwaysFails obligingHost (start ())).2.trace = [] ∧
    runAttempts (InstallPython alwaysFails obligingHost (start ())).2.trace = [] ∧
    pipInstallCalls (InstallPython alwaysFails obligingHost (start ())).2.trace ≠
      ["virtualenv", "pip-tools", "black", "flake8", "pytest", "requests", "numpy",
        "pandas", "jupyter"] := by
  have e := installPython_of_python_err alwaysFails obligingHost (start ())
    "exit status 1" () rfl
  rw [e]
  refine ⟨by simp, ?_, ?_, ?_⟩
  · simp [start, pipInstallCalls, runAttempts]
  · simp [start, runAttempts]
  · simp [start, pipInstallCalls, runAttempts]

/-- C13, amended: `InstallPython` returns an error if and only if
`Install("python")` fails, or the pip probe fails and the `ensurepip` run that
follows fails too; two hosts that agree on the probe and on `ensurepip` give
the same result, however they differ on the pip package installs.  The
package step, `installEssentialPackages`, returns no error whatever the nine
pip installs return and runs `python -m pip install` exactly once for each of
`virtualenv`, `pip-tools`, `black`, `flake8`, `pytest`, `requests`, `numpy`,
`pandas`, `jupyter`, in that order, each on the host state the one before it
left.  When `InstallPython` returns no error it has run exactly those nine
pip installs, in that order, after pip was found or installed; when it returns
an error it has run none of them. -/
theorem installPython_error_iff {σ : Type} (pm : PackageManager σ) (sh : Host σ)
    (r : Traced σ) :
    ((InstallPython pm sh r).1 ≠ none ↔
      ((pm.Install "python" r.world).1 ≠ none ∨
        ((commandRun sh ["python", "-m", "pip", "--version"]
            (pm.Install "python" r.world).2).1 ≠ none ∧
          (commandRun sh ["python", "-m", "ensurepip", "--upgrade"]
            (commandRun sh ["python", "-m", "pip", "--version"]
              (pm.Install "python" r.world).2).2).1 ≠ none))) ∧
    (∀ sh' : Host σ,
      (∀ w, commandRun sh' ["python", "-m", "pip", "--version"] w =
        commandRun sh ["python", "-m", "pip", "--version"] w) →
      (∀ w, commandRun sh' ["python", "-m", "ensurepip", "--upgrade"] w =
        commandRun sh ["python", "-m", "ensurepip", "--upgrade"] w) →
      (InstallPython pm sh' r).1 = (InstallPython pm sh r).1) ∧
    (∀ q : Traced σ,
      (installEssentialPackages sh q).1 = none ∧
        pipInstallCalls (installEssentialPackages sh q).2.trace =
          pipInstallCalls q.trace ++
            ["virtualenv", "pip-tools", "black", "flake8", "pytest", "requests", "numpy",
              "pandas", "jupyter"] ∧
        runAttempts (installEssentialPackages sh q).2.trace =
          runAttempts q.trace ++
            [["python", "-m", "pip", "install", "virtualenv"],
              ["python", "-m", "pip", "install", "pip-tools"],
              ["python", "-m", "pip", "install", "black"],
              ["python", "-m", "pip", "install", "flake8"],
              ["python", "-m", "pip", "install", "pytest"],
              ["python", "-m", "pip", "install", "requests"],
              ["python", "-m", "pip", "install", "numpy"],
              ["python", "-m", "pip", "install", "pandas"],
              ["python", "-m", "pip", "install", "jupyter"]] ∧
        (installEssentialPackages sh q).2.world =
          ["virtualenv", "pip-tools", "black", "flake8", "pytest", "requests", "numpy",
              "pandas", "jupyter"].foldl
            (fun w pkg => (commandRun sh ["python", "-m", "pip", "install", pkg] w).2)
            q.world) ∧
    ((InstallPython pm sh r).1 = none →
      (pipInstallCalls (InstallPython pm sh r).2.trace =
          pipInstallCalls r.trace ++
            ["virtualenv", "pip-tools", "black", "flake8", "pytest", "requests", "numpy",
              "pandas", "jupyter"] ∧
        (InstallPython pm sh r).2.world =
          ["virtualenv", "pip-tools", "black", "flake8", "pytest", "requests", "numpy",
              "pandas", "jupyter"].foldl
            (fun w pkg => (commandRun sh ["python", "-m", "pip", "install", pkg] w).2)
            (if (commandRun sh ["python", "-m", "pip", "--version"]
                (pm.Install "python" r.world).2).1 = none then
              (commandRun sh ["python", "-m", "pip", "--version"]
                (pm.Install "python" r.world).2).2
            else
              (commandRun sh ["python", "-m", "ensurepip", "--upgrade"]
                (commandRun sh ["python", "-m", "pip", "--version"]
                  (pm.Install "python" r.world).2).2).2))) ∧
    ((InstallPython pm sh r).1 ≠ none →
      pipInstallCalls (InstallPython pm sh r).2.trace = pipInstallCalls r.trace) := by
  have hStep : ∀ q : Traced σ,
      (installEssentialPackages sh q).1 = none ∧
        pipInstallCalls (installEssentialPackages sh q).2.trace =
          pipInstallCalls q.trace ++ packages ∧
        runAttempts (installEssentialPackages sh q).2.trace =
          runAttempts q.trace ++
            packages.map (fun pkg => ["python", "-m", "pip", "install", pkg]) ∧
        (installEssentialPackages sh q).2.world =
          packages.foldl
            (fun w pkg => (commandRun sh ["python", "-m", "pip", "install", pkg] w).2)
            q.world := by
    intro q
    refine ⟨rfl, ?_, ?_, ?_⟩
    · simp [installEssentialPackages, pipInstallCalls_installPackagesLoop]
    · simp [installEssentialPackages, runAttempts_installPackagesLoop]
    · simp [installEssentialPackages, installPackagesLoop_world]
  refine ⟨?_, ?_, hStep, ?_, ?_⟩
  · rcases h1 : pm.Install "python" r.world with ⟨e1, w1⟩
    cases e1 with
    | some msg => simp [installPython_of_python_err pm sh r msg w1 h1]
    | none =>
      rcases h2 : commandRun sh ["python", "-m", "pip", "--version"] w1 with ⟨e2, w2⟩
      cases e2 with
      | none => simp [(installPython_of_pip_present pm sh r w1 w2 h1 h2).1]
      | some msg2 =>
        rcases h3 : commandRun sh ["python", "-m", "ensurepip", "--upgrade"] w2 with ⟨e3, w3⟩
        cases e3 with
        | none => simp [(installPython_of_pip_installed pm sh r w1 w2 w3 msg2 h1 h2 h3).1]
        | some msg3 =>
          simp [installPython_of_ensurepip_err pm sh r w1 w2 w3 msg2 msg3 h1 h2 h3]
  · intro sh' hProbe hEnsure
    rcases h1 : pm.Install "python" r.world with ⟨e1, w1⟩
    cases e1 with
    | some msg =>
      rw [installPython_of_python_err pm sh r msg w1 h1,
        installPython_of_python_err pm sh' r msg w1 h1]
    | none =>
      rcases h2 : commandRun sh ["python", "-m", "pip", "--version"] w1 with ⟨e2, w2⟩
      have h2' := (hProbe w1).trans h2
      cases e2 with
      | none =>
        rw [(installPython_of_pip_present pm sh r w1 w2 h1 h2).1,
          (installPython_of_pip_present pm sh' r w1 w2 h1 h2').1]
      | some msg2 =>
        rcases h3 : commandRun sh ["python", "-m", "ensurepip", "--upgrade"] w2 with ⟨e3, w3⟩
        have h3' := (hEnsure w2).trans h3
        cases e3 with
        | none =>
          rw [(installPython_of_pip_installed pm sh r w1 w2 w3 msg2 h1 h2 h3).1,
            (installPython_of_pip_installed pm sh' r w1 w2 w3 msg2 h1 h2' h3').1]
        | some msg3 =>
          rw [installPython_of_ensurepip_err pm sh r w1 w2 w3 msg2 msg3 h1 h2 h3,
            installPython_of_ensurepip_err pm sh' r w1 w2 w3 msg2 msg3 h1 h2' h3']
  · intro hOk
    rcases h1 : pm.Install "python" r.world with ⟨e1, w1⟩
    cases e1 with
    | some msg =>
      rw [installPython_of_python_err pm sh r msg w1 h1] at hOk
      simp at hOk
    | none =>
      rcases h2 : commandRun sh ["python", "-m", "pip", "--version"] w1 with ⟨e2, w2⟩
      cases e2 with
      | none =>
        have hc := installPython_of_pip_present pm sh r w1 w2 h1 h2
        exact ⟨hc.2.2.1, by rw [hc.2.2.2]; rfl⟩
      | some msg2 =>
        rcases h3 : commandRun sh ["python", "-m", "ensurepip", "--upgrade"] w2 with ⟨e3, w3⟩
        cases e3 with
        | none =>
          have hc := installPython_of_pip_installed pm sh r w1 w2 w3 msg2 h1 h2 h3
          refine ⟨hc.2.2.1, ?_⟩
          rw [hc.2.2.2]
          simp [h3, packages]
        | some msg3 =>
          rw [installPython_of_ensurepip_err pm sh r w1 w2 w3 msg2 msg3 h1 h2 h3] at hOk
          simp at hOk
  · intro hErr
    rcases h1 : pm.Install "python" r.world with ⟨e1, w1⟩
    cases e1 with
    | some msg =>
      rw [installPython_of_python_err pm sh r msg w1 h1]
      simp [pipInstallCalls, runAttempts]
    | none =>
      rcases h2 : commandRun sh ["python", "-m", "pip", "--version"] w1 with ⟨e2, w2⟩
      cases e2 with
      | none => exact absurd (installPython_of_pip_present pm sh r w1 w2 h1 h2).1 hErr
      | some msg2 =>
        rcases h3 : commandRun sh ["python", "-m", "ensurepip", "--upgrade"] w2 with ⟨e3, w3⟩
        cases e3 with
        | none =>
          exact absurd (installPython_of_pip_installed pm sh r w1 w2 w3 msg2 h1 h2 h3).1 hErr
        | some msg3 =>
          rw [installPython_of_ensurepip_err pm sh r w1 w2 w3 msg2 msg3 h1 h2 h3]
          simp only [pipInstallCalls_append, pipInstallCalls_probe_events, List.append_nil]

/-! ## Map literals with a repeated key -/

theorem GoMap.length_set_le (m : GoMap) (k v : String) :
    (GoMap.set m k v).length ≤ m.length + 1 := by
  induction m with
  | nil => simp [GoMap.set]
  | cons kv rest ih =>
    by_cases h : kv.1 = k
    · simp [GoMap.set, h]
    · simp [GoMap.set, h]
      omega

theorem GoMap.length_set_set (m : GoMap) (k v v' : String) :
    (GoMap.set (GoMap.set m k v) k v').length = (GoMap.set m k v).length := by
  induction m with
  | nil => simp [GoMap.set]
  | cons kv rest ih =>
    by_cases h : kv.1 = k
    · simp [GoMap.set, h]
    · simp [GoMap.set, h, ih]

theorem GoMap.length_foldl_set_le (entries : List (String × String)) :
    ∀ m : GoMap,
      (entries.foldl (fun m kv => GoMap.set m kv.1 kv.2) m).length ≤
        m.length + entries.length := by
  induction entries with
  | nil => intro m; simp
  | cons kv rest ih =>
    intro m
    have h1 := ih (GoMap.set m kv.1 kv.2)
    have h2 := GoMap.length_set_le m kv.1 kv.2
    simp only [List.foldl_cons, List.length_cons]
    omega

/-- A map literal in which one key is written twice in a row has fewer entries
than it has key-value pairs. -/
theorem GoMap.length_literal_repeated_key (before after : List (String × String))
    (k v v' : String) :
    (GoMap.literal (before ++ (k, v) :: (k, v') :: after)).length ≤
      before.length + 1 + after.length := by
  have h1 := GoMap.length_foldl_set_le before []
  have h2 := GoMap.length_set_le (before.foldl (fun m kv => GoMap.set m kv.1 kv.2) []) k v
  have h3 := GoMap.length_set_set (before.foldl (fun m kv => GoMap.set m kv.1 kv.2) []) k v v'
  have h4 := GoMap.length_foldl_set_le after
    (GoMap.set (GoMap.set (before.foldl (fun m kv => GoMap.set m kv.1 kv.2) []) k v) k v')
  simp only [GoMap.literal, List.foldl_append, List.foldl_cons]
  simp only [List.length_nil] at h1
  omega

set_option maxRecDepth 100000 in
theorem generateSourceC_main_defines_no_main :
    stringsContains (generateSourceC "main") "int main(void)" = false ∧
      stringsContains (generateMainC "main") "int main(void)" = true := by
  decide

/-! ## Claim about `CreateCProject` -/

/-- C14 fails for the project name `main`, which contains no path separator.
Whatever `filepath.Join` computes, the keys written for `src/main.c` and for
`src/<name>.c` are then the same string, so the `files` map has at most seven
entries.  On a file layer that records its calls, `CreateCProject("main")`
returns no error after seven `WriteFile` calls, one for each of seven paths,
and the file `main/src/main.c` is written with the `generateSourceC` text,
which defines `greet` and not `main`. -/
theorem createCProject_main_overwrites_main_c :
    ('/' ∉ "main".data ∧ '\\' ∉ "main".data) ∧
    (∀ (φ : Type) (fs : FileSys φ),
      fs.join ["main", "src", "main.c"] = fs.join ["main", "src", "main" ++ ".c"] ∧
        ¬ ((fileEntries fs "main").map Prod.fst).Nodup ∧
        (files fs "main").length ≤ 7) ∧
    (CreateCProject recordingFS "main" (start { made := [], written := [] })).1 = none ∧
    (CreateCProject recordingFS "main"
        (start { made := [], written := [] })).2.world.written.length = 7 ∧
    (∀ path ∈ ["main/README.md", "main/.gitignore", "main/CMakeLists.txt", "main/Makefile",
        "main/src/main.c", "main/include/main.h", "main/tests/test_main.c"],
      path ∈ (CreateCProject recordingFS "main"
        (start { made := [], written := [] })).2.world.written.map Prod.fst) ∧
    GoMap.get
        (CreateCProject recordingFS "main"
          (start { made := [], written := [] })).2.world.written "main/src/main.c" =
      some (generateSourceC "main") ∧
    generateSourceC "main" ≠ generateMainC "main" ∧
    stringsContains (generateSourceC "main") "int main(void)" = false := by
  have hname : ("main" ++ ".c" : String) = "main.c" := by decide
  refine ⟨by decide, ?_, by decide, by decide, by decide, by decide, by decide,
    generateSourceC_main_defines_no_main.1⟩
  intro φ fs
  refine ⟨by rw [hname], ?_, ?_⟩
  · simp [fileEntries, hname]
  · have h := GoMap.length_literal_repeated_key
      [(fs.join ["main", "README.md"], generateReadme "main"),
        (fs.join ["main", ".gitignore"], cGitignore),
        (fs.join ["main", "CMakeLists.txt"], generateCMakeLists "main"),
        (fs.join ["main", "Makefile"], generateMakefile "main")]
      [(fs.join ["main", "include", "main" ++ ".h"], generateHeader "main"),
        (fs.join ["main", "tests", "test_main.c"], generateTestC "main")]
      (fs.join ["main", "src", "main.c"]) (generateMainC "main") (generateSourceC "main")
    simpa [files, fileEntries, hname] using h

end DevStation
